import Mathlib

/-!
Verification of the fdup duplicate-file detection engine (src/fdup/fduplib.py).

This file gives a shallow embedding of the engine's core data model and
algorithms — the chunked MD5 reader, the stability-checked hashing wrapper,
the persistent MD5 cache predicate, and the grouping pipelines for the
NAME / NAMESIZE / MD5 comparison modes — and proves or refutes the frozen
behavioural claims about them.

Modelling conventions:
- file contents are `List Nat` (byte lists); the external MD5 function
  (Python's `hashlib.md5`) is an abstract parameter `md5 : List Nat → Digest`
  with `Digest := List Nat`, applied to the concatenation of all chunks fed
  to the incremental hasher;
- Python dicts are embedded as insertion-ordered association lists with
  lookup / in-place overwrite / append-at-end operations matching CPython
  dict semantics;
- per-file I/O (stat, read errors) is supplied by explicit oracle functions,
  so that the deterministic sequential code paths of the library are
  reproduced exactly;
- printing, progress callbacks and `time.sleep` are omitted (pure I/O with
  no influence on the returned data structures).
-/

set_option maxRecDepth 16000

namespace Fdup

/-- Digest values: the output of the (abstract) MD5 function. -/
abbrev Digest := List Nat

/-- Mirrors class MD5Mode(Enum) in fduplib.py. -/
inductive MD5Mode where
  | DEFAULT
  | MD5SUM
deriving DecidableEq, Repr

/-- Mirrors MD5Mode.__str__ (returns the enum value string). -/
def MD5Mode.str : MD5Mode → String
  | .DEFAULT => "DEFAULT"
  | .MD5SUM => "MD5SUM"

/-- Mirrors class CompareMode(Enum) in fduplib.py. -/
inductive CompareMode where
  | NAME
  | NAMESIZE
  | MD5
deriving DecidableEq, Repr

/-- Configuration fields of the parsed `args` namespace that the hashing and
grouping code reads.  `md5_block_size = 0` and `md5_max_size = 0` model the
falsy values that the `getattr(...) or default` coalescing maps to the
defaults (4096 bytes resp. "no cap").  `md5_cache` is true when a cache path
is configured (truthiness of `args.md5_cache`). -/
structure Args where
  compare_mode : CompareMode
  md5_mode : MD5Mode
  md5_block_size : Nat
  md5_max_size : Nat
  require_stable : Bool
  md5_cache : Bool
deriving DecidableEq, Repr

/-- The effective chunk size: `getattr(args, 'md5_block_size', 4096) or 4096`. -/
def effBlockSize (a : Args) : Nat :=
  if a.md5_block_size = 0 then 4096 else a.md5_block_size

/-- A file_info dict as built by `get_file_info_metadata_only` / `get_file_info`
and enriched by the hashing phase: parent directory, base name, size, the
optional stored full path, and the md5 / md5_read_size fields added once the
digest is resolved. -/
structure FileInfo where
  path : String
  filename : String
  size : Nat
  full_path : Option String
  md5 : Option Digest
  md5_read_size : Option Nat
deriving DecidableEq, Repr

/-- Mirrors the fallback in `_find_duplicate_files_md5_size_first`:
`full_path = file_info.get('full_path')` and, when falsy (absent or empty),
`os.path.join(file_info['path'], file_info['filename'])`. -/
def fullPathOf (fi : FileInfo) : String :=
  match fi.full_path with
  | some p => if p = "" then fi.path ++ "/" ++ fi.filename else p
  | none => fi.path ++ "/" ++ fi.filename

/-- The identity of a file record (its parent directory and base name),
stable under md5 enrichment. -/
def identOf (fi : FileInfo) : String × String :=
  (fi.path, fi.filename)

/-- The result of `os.stat`: size, mtime (the float seconds value, modelled
as an abstract integer token compared only for equality), and the optional
nanosecond mtime (`st_mtime_ns`, absent on exotic platforms, matching the
`getattr` fallback in the code). -/
structure FileStat where
  st_size : Nat
  st_mtime : Int
  st_mtime_ns : Option Int
deriving DecidableEq, Repr

/-- Mirrors `getattr(file_stat, 'st_mtime_ns', int(file_stat.st_mtime * 1e9))`. -/
def nsOf (st : FileStat) : Int :=
  match st.st_mtime_ns with
  | some ns => ns
  | none => st.st_mtime * 1000000000

/-- A persisted MD5 cache entry.  All fields that the code reads through
`dict.get` are `Option`s (a JSON entry may miss them); `md5` is read with a
direct index (`cached['md5']`), so it is mandatory here. -/
structure CacheEntry where
  md5 : Digest
  md5_read_size : Option Nat
  size : Option Nat
  mtime_ns : Option Int
  mtime : Option Int
  md5_mode : Option String
  md5_max_size : Option Nat
deriving DecidableEq, Repr

/-- An entry of the `skipped_files` list built by
`_find_duplicate_files_md5_size_first` on hashing failure. -/
structure SkippedFile where
  path : String
  filename : String
  reason : String
deriving DecidableEq, Repr

/-! ### Insertion-ordered association lists (CPython dict semantics) -/

/-- Lookup in an insertion-ordered association list (`d.get(k)` / `d[k]`). -/
def alLookup {κ β : Type} [DecidableEq κ] : List (κ × β) → κ → Option β
  | [], _ => none
  | (k', v) :: rest, k => if k = k' then some v else alLookup rest k

/-- Insert or overwrite (`d[k] = v`): replaces the value in place when the
key is present, appends at the end otherwise — exactly CPython dict update
semantics. -/
def alInsert {κ β : Type} [DecidableEq κ] : List (κ × β) → κ → β → List (κ × β)
  | [], k, v => [(k, v)]
  | (k', v') :: rest, k, v =>
      if k = k' then (k', v) :: rest else (k', v') :: alInsert rest k v

/-- Append `v` to the list stored under `k`, creating the group at the end if
absent: `if k not in d: d[k] = []` followed by `d[k].append(v)`. -/
def groupAppend {κ α : Type} [DecidableEq κ] : List (κ × List α) → κ → α → List (κ × List α)
  | [], k, v => [(k, [v])]
  | (k', l) :: rest, k, v =>
      if k = k' then (k', l ++ [v]) :: rest else (k', l) :: groupAppend rest k v

/-- The member list of group `k` ([] when the key is absent). -/
def alGroup {κ α : Type} [DecidableEq κ] (m : List (κ × List α)) (k : κ) : List α :=
  (alLookup m k).getD []

/-- The keys of an association list, in insertion order. -/
def alKeys {κ β : Type} [DecidableEq κ] (m : List (κ × β)) : List κ :=
  m.map Prod.fst

/-! ### Folding `groupAppend` over a list: the duplicate-grouping workhorse

`List.foldl (fun m x => groupAppend m (keyf x) (valf x)) m₀ l` is the shape of
every grouping loop in fduplib (`duplicate_files[fileid].append(file_info)`,
`duplicate_files[md5sum].append(file_info)`, `size_groups[size].append(...)`).
-/

/-- Folding the grouping step over a list with an arbitrary starting dict. -/
def groupFold {κ α β : Type} [DecidableEq κ] (keyf : α → κ) (valf : α → β)
    (m₀ : List (κ × List β)) (l : List α) : List (κ × List β) :=
  l.foldl (fun m x => groupAppend m (keyf x) (valf x)) m₀

/-- Total number of records held in the grouping dict. -/
def groupSizes {κ α : Type} (m : List (κ × List α)) : Nat :=
  (m.map (fun p => p.2.length)).sum

/-! ### The chunked MD5 reader (`calculate_md5`, MD5Mode.DEFAULT branch) -/

/-- The chunk-reading loop of `calculate_md5`, structured on an explicit
iteration budget (any budget of at least one iteration per remaining byte is
exact, see `md5ReadChunks`): reads blocks of `blockSize` bytes, feeding each
to the incremental hasher and adding its length to `read_size`, and breaks
once `read_size >= max_size_bytes` when the cap is enabled (`maxBytes > 0`).
Returns the concatenation of all chunks consumed (the exact byte sequence
the digest covers).  An empty read (`content = []`, or `blockSize = 0`
where `file.read(0)` returns the `b""` sentinel) ends the loop. -/
def md5ReadChunksFuel (blockSize maxBytes : Nat) :
    Nat → List Nat → Nat → List Nat
  | 0, _, _ => []
  | fuel + 1, content, readSoFar =>
      if blockSize = 0 ∨ content = [] then []
      else
        let chunk := content.take blockSize
        if 0 < maxBytes ∧ maxBytes ≤ readSoFar + chunk.length then chunk
        else chunk ++ md5ReadChunksFuel blockSize maxBytes fuel
          (content.drop blockSize) (readSoFar + chunk.length)

/-- The chunk-reading loop, with the budget set to the content length (one
iteration consumes at least one byte, so the budget is never exhausted). -/
def md5ReadChunks (blockSize maxBytes : Nat) (content : List Nat) (readSoFar : Nat) :
    List Nat :=
  md5ReadChunksFuel blockSize maxBytes content.length content readSoFar

/-- Mirrors `calculate_md5(args, file_path, file_size)`.  In the DEFAULT mode
the digest is the abstract `md5` applied to the bytes consumed by the chunk
loop and the returned count is their number; in the MD5SUM mode the external
`md5sum` utility always reads the whole file and the given `file_size` is
returned as the read count. -/
def calculateMd5 (md5 : List Nat → Digest) (a : Args) (content : List Nat)
    (fileSize : Nat) : Digest × Nat :=
  match a.md5_mode with
  | .DEFAULT =>
      let consumed := md5ReadChunks (effBlockSize a) (a.md5_max_size * 1024) content 0
      (md5 consumed, consumed.length)
  | .MD5SUM => (md5 content, fileSize)

/-! ### `calculate_md5_with_stability_check`: retry loop and stability check -/

deriving instance DecidableEq for Except

/-- The external interactions of one attempt of
`calculate_md5_with_stability_check`: the result of the `os.stat` before
hashing, of `calculate_md5` (`.error` models an `OSError`/`IOError` raised
while reading, carrying the exception text), and of the `os.stat` after
hashing. -/
structure AttemptEnv where
  statBefore : Except String FileStat
  md5Res : Except String (Digest × Nat)
  statAfter : Except String FileStat
deriving DecidableEq, Repr

/-- `max_retries = 3` in `calculate_md5_with_stability_check`. -/
def maxRetries : Nat := 3

/-- The `for attempt in range(max_retries)` loop of
`calculate_md5_with_stability_check`, mirrored attempt by attempt (the
`time.sleep(retry_delay)` between attempts is pure real time and is
omitted).  The second argument is the remaining iteration budget
(`maxRetries - attempt`; 0 models falling off the end of the loop).
Returns the `(md5_hash, read_size, success, error_message)` tuple.  Note
the control flow of the source: a failing pre-hash `os.stat` and a failing
read are caught and retried while attempts remain, whereas a failing
post-hash `os.stat` and a detected size/mtime change return a final
failure immediately, on whatever attempt they occur. -/
def calcMd5StabilityLoop (requireStable : Bool) (env : Nat → AttemptEnv) :
    Nat → Nat → Digest × Nat × Bool × String
  | _, 0 => ([], 0, false, "Unexpected error in MD5 calculation")
  | attempt, fuel + 1 =>
      match requireStable, (env attempt).statBefore with
      | true, .error err =>
          if attempt < maxRetries - 1 then
            calcMd5StabilityLoop requireStable env (attempt + 1) fuel
          else ([], 0, false, "Failed to stat file: " ++ err)
      | rs, sb =>
          match (env attempt).md5Res with
          | .error err =>
              if attempt < maxRetries - 1 then
                calcMd5StabilityLoop requireStable env (attempt + 1) fuel
              else ([], 0, false, "Failed to read file after 3 attempts: " ++ err)
          | .ok (d, readSize) =>
              if rs then
                match (env attempt).statAfter, sb with
                | .error err, _ =>
                    ([], 0, false, "Failed to verify file stability: " ++ err)
                | .ok stAfter, .ok stBefore =>
                    if stBefore.st_size ≠ stAfter.st_size ∨
                        stBefore.st_mtime ≠ stAfter.st_mtime then
                      ([], 0, false, "File changed during hashing (size: " ++
                        toString stBefore.st_size ++ "->" ++ toString stAfter.st_size ++
                        ", mtime: " ++ toString stBefore.st_mtime ++ "->" ++
                        toString stAfter.st_mtime ++ ")")
                    else (d, readSize, true, "")
                | .ok _, .error _ =>
                    ([], 0, false, "Unexpected error in MD5 calculation")
              else (d, readSize, true, "")

/-- Mirrors `calculate_md5_with_stability_check` (the loop started at
attempt 0 with the full budget of `maxRetries` iterations). -/
def calcMd5WithStabilityCheck (requireStable : Bool) (env : Nat → AttemptEnv) :
    Digest × Nat × Bool × String :=
  calcMd5StabilityLoop requireStable env 0 maxRetries

/-! ### The cache-hit predicate `_is_cache_hit` -/

/-- The trailing md5_mode / md5_max_size checks of `_is_cache_hit`. -/
def isCacheHitModes (e : CacheEntry) (a : Args) : Bool :=
  if e.md5_mode ≠ some a.md5_mode.str then false
  else if e.md5_max_size.getD 0 ≠ a.md5_max_size then false
  else true

/-- Mirrors `_is_cache_hit(cache_entry, file_stat, args)`: size, then mtime
(nanosecond precision when the entry recorded `mtime_ns`, else the
second-precision `mtime` field), then hashing mode, then the
`md5_max_size` setting. -/
def isCacheHit (e : CacheEntry) (st : FileStat) (a : Args) : Bool :=
  if e.size ≠ some st.st_size then false
  else
    match e.mtime_ns with
    | some ns => if ns ≠ nsOf st then false else isCacheHitModes e a
    | none => if e.mtime ≠ some st.st_mtime then false else isCacheHitModes e a

/-! ### Grouping engine: NAME / NAMESIZE modes (`find_duplicate_files`) -/

/-- The dynamically typed `fileid` of the NAME / NAMESIZE grouping loop. -/
inductive FileId where
  | name (s : String)
  | namesize (s : String) (n : Nat)
deriving DecidableEq, Repr

/-- The `fileid` computed per record in `find_duplicate_files`; `none` models
the `continue` of the unreachable `else` branch (the MD5 mode is dispatched
to the size-first pipeline before this loop). -/
def fileIdOf (mode : CompareMode) (fi : FileInfo) : Option FileId :=
  match mode with
  | .NAME => some (.name fi.filename)
  | .NAMESIZE => some (.namesize fi.filename fi.size)
  | .MD5 => none

/-- All discovered records in root order, then discovery order within each
root: the iteration order of `for root_dir in files: for file_info in
files[root_dir]`. -/
def allRecords (files : List (String × List FileInfo)) : List FileInfo :=
  files.flatMap Prod.snd

/-- Mirrors the NAME / NAMESIZE branch of `find_duplicate_files`: every
record is appended to the group of its `fileid`, singleton groups
included. -/
def findDuplicateFiles (mode : CompareMode) (files : List (String × List FileInfo)) :
    List (FileId × List FileInfo) :=
  (allRecords files).foldl
    (fun m fi =>
      match fileIdOf mode fi with
      | some k => groupAppend m k fi
      | none => m) []

/-- The `real_duplicates` filter of `save_duplicates_to_json` /
`export_cleanup_to_script`: keep only groups with more than one member. -/
def realDuplicates {κ : Type} (m : List (κ × List FileInfo)) :
    List (κ × List FileInfo) :=
  m.filter (fun g => 1 < g.2.length)

/-! ### Grouping engine: MD5 mode (`_find_duplicate_files_md5_size_first`)

The sequential code path (no thread pool) of the size-first pipeline,
parameterized by the per-file external effects: `hashFn` is the outcome of
`calculate_md5_with_stability_check` for a record, `stat` the outcome of
`os.stat` on a full path, `cacheKeyFn` the path normalization
`_get_cache_key` (`os.path.normcase(os.path.abspath(.))`). -/

/-- Outcome of `calculate_md5_with_stability_check` for one file, as consumed
by the pipeline: the `(md5, read_size, True, "")` and `(_, _, False, msg)`
shapes of its result tuple. -/
inductive HashResult where
  | success (md5 : Digest) (readSize : Nat)
  | failure (msg : String)
deriving DecidableEq, Repr

/-- The external collaborators of the pipeline. -/
structure PipelineEnv where
  args : Args
  hashFn : FileInfo → HashResult
  stat : String → Option FileStat
  cacheKeyFn : String → String

/-- Phase 1: `size_groups`, the records grouped by exact size pooled across
all roots, in first-occurrence order. -/
def sizeGroups (files : List (String × List FileInfo)) : List (Nat × List FileInfo) :=
  groupFold (fun fi => fi.size) id [] (allRecords files)

/-- `candidate_groups`: only size groups with more than one member. -/
def candidateGroups (files : List (String × List FileInfo)) :
    List (Nat × List FileInfo) :=
  (sizeGroups files).filter (fun g => 1 < g.2.length)

/-- The iteration order of the cache/flattening loop
(`for size, group in candidate_groups.items(): for file_info in group`). -/
def flattenedCandidates (files : List (String × List FileInfo)) : List FileInfo :=
  (candidateGroups files).flatMap Prod.snd

/-- Enrichment of a record on a cache hit: `file_info['md5'] = cached['md5']`
and `file_info['md5_read_size'] = cached.get('md5_read_size',
file_info['size'])`. -/
def enrichHit (fi : FileInfo) (e : CacheEntry) : FileInfo :=
  { fi with md5 := some e.md5, md5_read_size := some (e.md5_read_size.getD fi.size) }

/-- Enrichment of a record on a fresh successful hash. -/
def enrichHashed (fi : FileInfo) (d : Digest) (rs : Nat) : FileInfo :=
  { fi with md5 := some d, md5_read_size := some rs }

/-- Whether the cache lookup for a record is a usable hit: the cache is
enabled, an entry exists under the record's cache key, the current `os.stat`
succeeds, and `_is_cache_hit` accepts the entry.  Lookups run against the
`loaded` entries: phase 2 inserts happen only after this pass completes. -/
def cacheDecision (env : PipelineEnv) (loaded : List (String × CacheEntry))
    (fi : FileInfo) : Option CacheEntry :=
  if env.args.md5_cache then
    match alLookup loaded (env.cacheKeyFn (fullPathOf fi)) with
    | some cached =>
        match env.stat (fullPathOf fi) with
        | some st => if isCacheHit cached st env.args then some cached else none
        | none => none
    | none => none
  else none

/-- One iteration of the cache/flattening loop: a hit is grouped immediately
under its cached digest; everything else is queued in `files_needing_hash`. -/
def cachePassStep (env : PipelineEnv) (loaded : List (String × CacheEntry))
    (s : List (Digest × List FileInfo) × List (FileInfo × String)) (fi : FileInfo) :
    List (Digest × List FileInfo) × List (FileInfo × String) :=
  match cacheDecision env loaded fi with
  | some cached => (groupAppend s.1 cached.md5 (enrichHit fi cached), s.2)
  | none => (s.1, s.2 ++ [(fi, fullPathOf fi)])

/-- The completed cache/flattening pass: the groups of cache-hit records and
the `files_needing_hash` queue. -/
def cachePass (env : PipelineEnv) (loaded : List (String × CacheEntry))
    (files : List (String × List FileInfo)) :
    List (Digest × List FileInfo) × List (FileInfo × String) :=
  (flattenedCandidates files).foldl (cachePassStep env loaded) ([], [])

/-- The fresh cache entry written after a successful hash and re-stat. -/
def freshCacheEntry (a : Args) (d : Digest) (rs : Nat) (st : FileStat) : CacheEntry :=
  { md5 := d, md5_read_size := some rs, size := some st.st_size,
    mtime_ns := some (nsOf st), mtime := none,
    md5_mode := some a.md5_mode.str, md5_max_size := some a.md5_max_size }

/-- The pipeline state threaded through phase 2 (`duplicate_files`,
`skipped_files`, `cache_entries`). -/
structure HashPhaseState where
  dup : List (Digest × List FileInfo)
  skipped : List SkippedFile
  cache : List (String × CacheEntry)

/-- One iteration of the sequential phase-2 loop over `files_needing_hash`:
on success the record is enriched, the cache entry refreshed (when the cache
is enabled and the re-stat succeeds) and the record grouped under its
digest; on failure the record is appended to `skipped_files` only. -/
def hashPhaseStep (env : PipelineEnv) (s : HashPhaseState) (item : FileInfo × String) :
    HashPhaseState :=
  match env.hashFn item.1 with
  | .success d rs =>
      { dup := groupAppend s.dup d (enrichHashed item.1 d rs),
        skipped := s.skipped,
        cache :=
          if env.args.md5_cache then
            match env.stat item.2 with
            | some st =>
                alInsert s.cache (env.cacheKeyFn item.2) (freshCacheEntry env.args d rs st)
            | none => s.cache
          else s.cache }
  | .failure msg =>
      { s with skipped := s.skipped ++ [⟨item.1.path, item.1.filename, msg⟩] }

/-- Mirrors the sequential path of `_find_duplicate_files_md5_size_first`:
size triage, cache pass, then the hashing loop.  The returned state carries
the final `duplicate_files` map, the `skipped_files` list and the
`cache_entries` dict that `save_md5_cache` writes back. -/
def findDuplicateFilesMd5SizeFirst (env : PipelineEnv)
    (loaded : List (String × CacheEntry)) (files : List (String × List FileInfo)) :
    HashPhaseState :=
  let p := cachePass env loaded files
  p.2.foldl (hashPhaseStep env) ⟨p.1, [], loaded⟩

/-- The digest `calculate_md5` computes for a record whose content is given
by the filesystem `fs`. -/
def contentDigest (md5 : List Nat → Digest) (a : Args) (fs : FileInfo → List Nat)
    (fi : FileInfo) : Digest :=
  (calculateMd5 md5 a (fs fi) fi.size).1

/-- The read count `calculate_md5` reports for a record. -/
def contentReadSize (md5 : List Nat → Digest) (a : Args) (fs : FileInfo → List Nat)
    (fi : FileInfo) : Nat :=
  (calculateMd5 md5 a (fs fi) fi.size).2

/-- The record as enriched by an error-free hash of its content. -/
def contentEnrich (md5 : List Nat → Digest) (a : Args) (fs : FileInfo → List Nat)
    (fi : FileInfo) : FileInfo :=
  enrichHashed fi (contentDigest md5 a fs fi) (contentReadSize md5 a fs fi)

/-- The hash outcome of a record under error-free in-process hashing:
`calculate_md5_with_stability_check` returns `calculate_md5`'s result with
`success = True` when no exception occurs and no instability is detected. -/
def hashNoErrors (md5 : List Nat → Digest) (a : Args) (fs : FileInfo → List Nat) :
    FileInfo → HashResult :=
  fun fi => .success (contentDigest md5 a fs fi) (contentReadSize md5 a fs fi)

/-- Modelled from the spec: the reference pipeline with Size Triage removed
("removing it from the pipeline (hash everything) must produce identical
group membership"), for the differential comparison of §8.  Every discovered
record is hashed (error-free, no cache) in discovery order and grouped by
its digest. -/
def findDuplicateFilesNoTriage (md5 : List Nat → Digest) (a : Args)
    (fs : FileInfo → List Nat) (files : List (String × List FileInfo)) :
    List (Digest × List FileInfo) :=
  groupFold (contentDigest md5 a fs) (contentEnrich md5 a fs) [] (allRecords files)

/-! ### Decomposition of the pipeline into its record streams -/

/-- The cache-hit records of a run, paired with their matching entries, in
triage order. -/
def cacheHits (env : PipelineEnv) (loaded : List (String × CacheEntry))
    (files : List (String × List FileInfo)) : List (FileInfo × CacheEntry) :=
  (flattenedCandidates files).filterMap
    (fun fi => (cacheDecision env loaded fi).map (fun e => (fi, e)))

/-- The successful fresh hashes of a list of queued items: digest and
enriched record, in queue order. -/
def hashSuccesses (env : PipelineEnv) (l : List (FileInfo × String)) :
    List (Digest × FileInfo) :=
  l.filterMap
    (fun it =>
      match env.hashFn it.1 with
      | .success d rs => some (d, enrichHashed it.1 d rs)
      | .failure _ => none)

/-- The skip entries produced by the failed hashes of a list of queued
items, in queue order. -/
def hashFailures (env : PipelineEnv) (l : List (FileInfo × String)) :
    List SkippedFile :=
  l.filterMap
    (fun it =>
      match env.hashFn it.1 with
      | .success _ _ => none
      | .failure msg => some ⟨it.1.path, it.1.filename, msg⟩)

/-- The cache insertions performed while hashing a list of queued items, in
order. -/
def cacheInserts (env : PipelineEnv) (l : List (FileInfo × String)) :
    List (String × CacheEntry) :=
  l.filterMap
    (fun it =>
      match env.hashFn it.1 with
      | .success d rs =>
          if env.args.md5_cache then
            (env.stat it.2).map
              (fun st => (env.cacheKeyFn it.2, freshCacheEntry env.args d rs st))
          else none
      | .failure _ => none)

/-- The `files_needing_hash` queue of a run. -/
def needingOf (env : PipelineEnv) (loaded : List (String × CacheEntry))
    (files : List (String × List FileInfo)) : List (FileInfo × String) :=
  (cachePass env loaded files).2

/-! ### Concrete inputs for witnesses and counterexamples -/

/-- A cheap stand-in digest function for concrete runs (digest = byte count). -/
def md5Len : List Nat → Digest := fun l => [l.length]

/-- Concrete records X, Y, Z named "a", "a", "b" (the §8 scenario). -/
def fX : FileInfo :=
  { path := "/r/d1", filename := "a", size := 100, full_path := none,
    md5 := none, md5_read_size := none }

def fY : FileInfo :=
  { path := "/r/d2", filename := "a", size := 100, full_path := none,
    md5 := none, md5_read_size := none }

def fZ : FileInfo :=
  { path := "/r/d1", filename := "b", size := 200, full_path := none,
    md5 := none, md5_read_size := none }

def filesXYZ : List (String × List FileInfo) := [("/r", [fX, fY, fZ])]

/-- Configuration with the in-process hasher, a 1 KB byte cap and a 2048-byte
block. -/
def argsCapBlock : Args :=
  { compare_mode := .MD5, md5_mode := .DEFAULT, md5_block_size := 2048,
    md5_max_size := 1, require_stable := false, md5_cache := false }

/-- A stable stat snapshot used in the stability-check scenarios. -/
def stC2a : FileStat := { st_size := 10, st_mtime := 5, st_mtime_ns := some 5000000000 }

/-- The same file one byte larger (a concurrent append). -/
def stC2b : FileStat := { st_size := 11, st_mtime := 5, st_mtime_ns := some 5000000000 }

/-- Attempt environments: the file is unstable exactly on the first attempt
(size changes from 10 to 11 during hashing) and perfectly stable afterwards. -/
def envUnstableFirst : Nat → AttemptEnv := fun n =>
  if n = 0 then { statBefore := .ok stC2a, md5Res := .ok ([7], 10), statAfter := .ok stC2b }
  else { statBefore := .ok stC2a, md5Res := .ok ([7], 10), statAfter := .ok stC2a }

/-- Attempt environments: the read raises an I/O error on the first two
attempts and succeeds (stable) on the third. -/
def envIoTwice : Nat → AttemptEnv := fun n =>
  if n ≤ 1 then { statBefore := .ok stC2a, md5Res := .error "io", statAfter := .ok stC2a }
  else { statBefore := .ok stC2a, md5Res := .ok ([7], 10), statAfter := .ok stC2a }

/-- Records for the failed-hash scenario: two files of equal size. -/
def hA : FileInfo :=
  { path := "/r", filename := "h1", size := 7, full_path := some "/r/h1",
    md5 := none, md5_read_size := none }

def hB : FileInfo :=
  { path := "/r", filename := "h2", size := 7, full_path := some "/r/h2",
    md5 := none, md5_read_size := none }

def filesHH : List (String × List FileInfo) := [("/r", [hA, hB])]

/-- Configuration: content mode, in-process hashing, no cache. -/
def argsNoCache : Args :=
  { compare_mode := .MD5, md5_mode := .DEFAULT, md5_block_size := 0,
    md5_max_size := 0, require_stable := true, md5_cache := false }

/-- Configuration: content mode, in-process hashing, cache enabled. -/
def argsCacheOn : Args :=
  { compare_mode := .MD5, md5_mode := .DEFAULT, md5_block_size := 0,
    md5_max_size := 0, require_stable := false, md5_cache := true }

/-- Pipeline collaborators where hashing file h1 fails after retries and any
other file hashes fine. -/
def envFailH1 : PipelineEnv :=
  { args := argsNoCache,
    hashFn := fun fi =>
      if fi.filename = "h1" then
        .failure "Failed to read file after 3 attempts: io"
      else .success [7] 7,
    stat := fun _ => none,
    cacheKeyFn := id }

/-- The stat every path reports in the cache-growth scenario. -/
def stW : FileStat := { st_size := 7, st_mtime := 50, st_mtime_ns := some 50000000000 }

/-- A pre-existing cache entry under a key no scanned file maps to. -/
def entOld : CacheEntry :=
  { md5 := [1], md5_read_size := some 7, size := some 7, mtime_ns := some 1,
    mtime := none, md5_mode := some "DEFAULT", md5_max_size := some 0 }

def loadedOld : List (String × CacheEntry) := [("/old", entOld)]

/-- Pipeline collaborators for the cache-growth scenario: cache on, every
hash succeeds, every stat succeeds. -/
def envCacheGrow : PipelineEnv :=
  { args := argsCacheOn, hashFn := fun _ => .success [7] 7,
    stat := fun _ => some stW, cacheKeyFn := id }

/-- Records for the cache-reordering scenario: two files of equal size, cA
discovered before cB. -/
def cA : FileInfo :=
  { path := "/r", filename := "a1", size := 5, full_path := some "/r/a1",
    md5 := none, md5_read_size := none }

def cB : FileInfo :=
  { path := "/r", filename := "b1", size := 5, full_path := some "/r/b1",
    md5 := none, md5_read_size := none }

def filesCC : List (String × List FileInfo) := [("/r", [cA, cB])]

/-- The stat both files report. -/
def stHit : FileStat := { st_size := 5, st_mtime := 100, st_mtime_ns := some 100000 }

/-- A cache entry matching cB's current stat and the current configuration. -/
def entHit : CacheEntry :=
  { md5 := [9], md5_read_size := some 5, size := some 5, mtime_ns := some 100000,
    mtime := none, md5_mode := some "DEFAULT", md5_max_size := some 0 }

def loadedHitB : List (String × CacheEntry) := [("/r/b1", entHit)]

/-- Pipeline collaborators: cache enabled, cB is a cache hit (entry under
"/r/b1"), cA is a miss and hashes to the same digest [9]. -/
def envHitB : PipelineEnv :=
  { args := argsCacheOn, hashFn := fun _ => .success [9] 5,
    stat := fun _ => some stHit, cacheKeyFn := id }

/-- Records for the triage counterexample: two files of different sizes
(1024 and 1025 bytes) agreeing on their first kilobyte. -/
def gA : FileInfo :=
  { path := "/r", filename := "g1", size := 1024, full_path := some "/r/g1",
    md5 := none, md5_read_size := none }

def gB : FileInfo :=
  { path := "/r", filename := "g2", size := 1025, full_path := some "/r/g2",
    md5 := none, md5_read_size := none }

def filesGG : List (String × List FileInfo) := [("/r", [gA, gB])]

/-- A filesystem where every file consists of zero bytes of its length. -/
def fsRep : FileInfo → List Nat := fun fi => List.replicate fi.size 0

/-- Configuration with a 1 KB cap and a 1024-byte block (in-process mode). -/
def argsCap1 : Args :=
  { compare_mode := .MD5, md5_mode := .DEFAULT, md5_block_size := 1024,
    md5_max_size := 1, require_stable := false, md5_cache := false }

/-- Pipeline collaborators under the capped configuration: error-free
hashing of the replicate filesystem, no cache. -/
def envCap : PipelineEnv :=
  { args := argsCap1, hashFn := hashNoErrors md5Len argsCap1 fsRep,
    stat := fun _ => none, cacheKeyFn := id }

/-! ## Theorems -/

theorem alLookup_alInsert {κ β : Type} [DecidableEq κ]
    (m : List (κ × β)) (k k' : κ) (v : β) :
    alLookup (alInsert m k v) k' = if k' = k then some v else alLookup m k' := by
  induction m with
  | nil =>
    by_cases h : k' = k <;> simp [alInsert, alLookup, h]
  | cons hd tl ih =>
    obtain ⟨k₀, v₀⟩ := hd
    by_cases h : k = k₀
    · subst h
      by_cases h' : k' = k <;> simp [alInsert, alLookup, h']
    · by_cases h' : k' = k₀
      · subst h'
        simp [alInsert, alLookup, h, Ne.symm h]
      · simp [alInsert, alLookup, h, h', ih]

theorem alKeys_alInsert {κ β : Type} [DecidableEq κ]
    (m : List (κ × β)) (k : κ) (v : β) (k' : κ) (h : k' ∈ alKeys m) :
    k' ∈ alKeys (alInsert m k v) := by
  induction m with
  | nil => simp [alKeys] at h
  | cons hd tl ih =>
    obtain ⟨k₀, v₀⟩ := hd
    by_cases hk : k = k₀
    · subst hk
      simpa [alKeys, alInsert] using h
    · simp only [alKeys, alInsert, hk, if_false, List.map_cons, List.mem_cons] at h ⊢
      rcases h with h | h
      · exact Or.inl h
      · exact Or.inr (ih h)

theorem alLookup_groupAppend {κ α : Type} [DecidableEq κ]
    (m : List (κ × List α)) (k k' : κ) (v : α) :
    alLookup (groupAppend m k v) k' =
      if k' = k then some (alGroup m k ++ [v]) else alLookup m k' := by
  induction m with
  | nil =>
    by_cases h : k' = k <;> simp [groupAppend, alLookup, alGroup, h]
  | cons hd tl ih =>
    obtain ⟨k₀, l₀⟩ := hd
    by_cases h : k = k₀
    · subst h
      by_cases h' : k' = k <;> simp [groupAppend, alLookup, alGroup, h']
    · by_cases h' : k' = k₀
      · subst h'
        simp [groupAppend, alLookup, alGroup, h, Ne.symm h]
      · simp only [groupAppend, h, if_false, alLookup, h', ite_false, ih]
        by_cases h'' : k' = k <;> simp [h'', alGroup, alLookup, h', h]

theorem alGroup_groupAppend {κ α : Type} [DecidableEq κ]
    (m : List (κ × List α)) (k k' : κ) (v : α) :
    alGroup (groupAppend m k v) k' =
      if k' = k then alGroup m k ++ [v] else alGroup m k' := by
  unfold alGroup
  rw [alLookup_groupAppend]
  by_cases h : k' = k <;> simp [h, alGroup]

theorem alKeys_groupAppend {κ α : Type} [DecidableEq κ]
    (m : List (κ × List α)) (k : κ) (v : α) :
    alKeys (groupAppend m k v) =
      if k ∈ alKeys m then alKeys m else alKeys m ++ [k] := by
  induction m with
  | nil => simp [groupAppend, alKeys]
  | cons hd tl ih =>
    obtain ⟨k₀, l₀⟩ := hd
    by_cases h : k = k₀
    · subst h
      simp [groupAppend, alKeys]
    · have ih' : List.map Prod.fst (groupAppend tl k v) =
        if k ∈ List.map Prod.fst tl then List.map Prod.fst tl
        else List.map Prod.fst tl ++ [k] := ih
      simp only [groupAppend, h, if_false, alKeys, List.map_cons, List.mem_cons, ih']
      by_cases h' : k ∈ List.map Prod.fst tl
      · simp [h', h]
      · simp [h', h]

theorem alKeys_nodup_groupAppend {κ α : Type} [DecidableEq κ]
    (m : List (κ × List α)) (k : κ) (v : α) (h : (alKeys m).Nodup) :
    (alKeys (groupAppend m k v)).Nodup := by
  rw [alKeys_groupAppend]
  by_cases hk : k ∈ alKeys m
  · simpa [hk] using h
  · rw [if_neg hk]
    apply List.Nodup.append h (List.nodup_singleton k)
    intro a ha hb
    simp only [List.mem_singleton] at hb
    subst hb
    exact hk ha

theorem alLookup_of_mem_nodup {κ β : Type} [DecidableEq κ]
    (m : List (κ × β)) (k : κ) (v : β)
    (hnd : (alKeys m).Nodup) (hmem : (k, v) ∈ m) :
    alLookup m k = some v := by
  induction m with
  | nil => simp at hmem
  | cons hd tl ih =>
    obtain ⟨k₀, v₀⟩ := hd
    simp only [alKeys, List.map_cons, List.nodup_cons] at hnd
    rcases List.mem_cons.mp hmem with h | h
    · simp only [Prod.mk.injEq] at h
      simp [alLookup, h.1, h.2]
    · have hk : k ≠ k₀ := by
        intro he
        subst he
        exact hnd.1 (by simpa [alKeys] using List.mem_map_of_mem Prod.fst h)
      simp [alLookup, hk, ih hnd.2 h]

theorem alGroup_groupFold {κ α β : Type} [DecidableEq κ]
    (keyf : α → κ) (valf : α → β) (l : List α) (m₀ : List (κ × List β)) (k : κ) :
    alGroup (groupFold keyf valf m₀ l) k =
      alGroup m₀ k ++ (l.filter (fun x => keyf x = k)).map valf := by
  induction l generalizing m₀ with
  | nil => simp [groupFold]
  | cons x l ih =>
    simp only [groupFold, List.foldl_cons] at *
    rw [ih, alGroup_groupAppend]
    by_cases h : keyf x = k
    · simp [h, List.filter_cons]
    · have h2 : ¬ k = keyf x := fun he => h he.symm
      simp [h, h2, List.filter_cons]

theorem alLookup_groupFold_eq_none {κ α β : Type} [DecidableEq κ]
    (keyf : α → κ) (valf : α → β) (l : List α) (m₀ : List (κ × List β)) (k : κ) :
    alLookup (groupFold keyf valf m₀ l) k = none ↔
      alLookup m₀ k = none ∧ l.filter (fun x => keyf x = k) = [] := by
  induction l generalizing m₀ with
  | nil => simp [groupFold]
  | cons x l ih =>
    simp only [groupFold, List.foldl_cons] at *
    rw [ih, alLookup_groupAppend]
    by_cases h : keyf x = k
    · rw [if_pos h.symm]
      simp [List.filter_cons, h]
    · rw [if_neg (fun he => h he.symm)]
      simp [List.filter_cons, h]

theorem alLookup_groupFold_of_filter_ne_nil {κ α β : Type} [DecidableEq κ]
    (keyf : α → κ) (valf : α → β) (l : List α) (k : κ)
    (h : l.filter (fun x => keyf x = k) ≠ []) :
    alLookup (groupFold keyf valf [] l) k =
      some ((l.filter (fun x => keyf x = k)).map valf) := by
  have hgr := alGroup_groupFold keyf valf l [] k
  simp only [alGroup, alLookup, Option.getD_none, List.nil_append] at hgr
  rcases ho : alLookup (groupFold keyf valf [] l) k with _ | g
  · rw [(alLookup_groupFold_eq_none keyf valf l [] k).mp ho |>.2] at h
    simp at h
  · rw [ho] at hgr
    simp only [Option.getD_some] at hgr
    rw [hgr]

theorem alKeys_groupFold_nodup {κ α β : Type} [DecidableEq κ]
    (keyf : α → κ) (valf : α → β) (l : List α) (m₀ : List (κ × List β))
    (h : (alKeys m₀).Nodup) :
    (alKeys (groupFold keyf valf m₀ l)).Nodup := by
  induction l generalizing m₀ with
  | nil => simpa [groupFold]
  | cons x l ih =>
    simp only [groupFold, List.foldl_cons] at *
    exact ih _ (alKeys_nodup_groupAppend _ _ _ h)

theorem groupSizes_groupAppend {κ α : Type} [DecidableEq κ]
    (m : List (κ × List α)) (k : κ) (v : α) :
    groupSizes (groupAppend m k v) = groupSizes m + 1 := by
  induction m with
  | nil => simp [groupAppend, groupSizes]
  | cons hd tl ih =>
    obtain ⟨k₀, l₀⟩ := hd
    by_cases h : k = k₀
    · subst h
      simp [groupAppend, groupSizes]
      omega
    · simp [groupAppend, h, groupSizes] at ih ⊢
      omega

theorem groupSizes_groupFold {κ α β : Type} [DecidableEq κ]
    (keyf : α → κ) (valf : α → β) (l : List α) (m₀ : List (κ × List β)) :
    groupSizes (groupFold keyf valf m₀ l) = groupSizes m₀ + l.length := by
  induction l generalizing m₀ with
  | nil => simp [groupFold]
  | cons x l ih =>
    simp only [groupFold, List.foldl_cons] at *
    rw [ih, groupSizes_groupAppend, List.length_cons]
    omega

theorem take_length_take {α : Type} (l : List α) (n : Nat) :
    l.take ((l.take n).length) = l.take n := by
  rw [List.length_take]
  rcases le_total n l.length with h | h
  · rw [Nat.min_eq_left h]
  · rw [Nat.min_eq_right h, List.take_length, List.take_of_length_le h]

theorem md5ReadChunksFuel_nil (blockSize maxBytes : Nat) (fuel r : Nat) :
    md5ReadChunksFuel blockSize maxBytes fuel [] r = [] := by
  cases fuel <;> simp [md5ReadChunksFuel]

theorem md5ReadChunksFuel_eq_take (blockSize maxBytes : Nat) (fuel : Nat) :
    ∀ (content : List Nat) (r : Nat), content.length ≤ fuel →
      md5ReadChunksFuel blockSize maxBytes fuel content r =
        content.take (md5ReadChunksFuel blockSize maxBytes fuel content r).length := by
  induction fuel with
  | zero =>
    intro content r h
    simp [md5ReadChunksFuel]
  | succ n ih =>
    intro content r h
    simp only [md5ReadChunksFuel]
    by_cases hg : blockSize = 0 ∨ content = []
    · simp [hg]
    · push_neg at hg
      rw [if_neg (not_or_intro hg.1 hg.2)]
      by_cases hstop : 0 < maxBytes ∧ maxBytes ≤ r + (content.take blockSize).length
      · rw [if_pos hstop]
        exact (take_length_take content blockSize).symm
      · rw [if_neg hstop]
        have hpos : 0 < blockSize := Nat.pos_of_ne_zero hg.1
        have hcpos : 0 < content.length := List.length_pos.mpr hg.2
        have hlen : (content.drop blockSize).length ≤ n := by
          rw [List.length_drop]
          omega
        have ihx := ih (content.drop blockSize) (r + (content.take blockSize).length) hlen
        conv_lhs => rw [ihx]
        rw [List.length_append]
        rcases le_or_lt blockSize content.length with hb | hb
        · have htl : (content.take blockSize).length = blockSize := by
            rw [List.length_take, Nat.min_eq_left hb]
          rw [htl, List.take_add]
        · have hdrop : content.drop blockSize = [] := by
            apply List.drop_eq_nil_of_le
            omega
          rw [hdrop, md5ReadChunksFuel_nil]
          have hall : content.take blockSize = content := List.take_of_length_le (le_of_lt hb)
          simp [hall]

theorem md5ReadChunks_eq_take (blockSize maxBytes : Nat) (content : List Nat)
    (readSoFar : Nat) :
    md5ReadChunks blockSize maxBytes content readSoFar =
      content.take (md5ReadChunks blockSize maxBytes content readSoFar).length :=
  md5ReadChunksFuel_eq_take blockSize maxBytes content.length content readSoFar le_rfl

theorem md5ReadChunks_length_le (blockSize maxBytes : Nat) (content : List Nat)
    (readSoFar : Nat) :
    (md5ReadChunks blockSize maxBytes content readSoFar).length ≤ content.length := by
  conv_lhs => rw [md5ReadChunks_eq_take]
  rw [List.length_take]
  omega

theorem md5ReadChunksFuel_no_cap (blockSize : Nat) (hb : blockSize ≠ 0) (fuel : Nat) :
    ∀ (content : List Nat) (r : Nat), content.length ≤ fuel →
      md5ReadChunksFuel blockSize 0 fuel content r = content := by
  induction fuel with
  | zero =>
    intro content r h
    have hc : content = [] := List.eq_nil_of_length_eq_zero (Nat.le_zero.mp h)
    subst hc
    simp [md5ReadChunksFuel]
  | succ n ih =>
    intro content r h
    simp only [md5ReadChunksFuel]
    by_cases hc : content = []
    · simp [hc]
    · rw [if_neg (not_or_intro hb hc)]
      rw [if_neg (by simp)]
      have hpos : 0 < blockSize := Nat.pos_of_ne_zero hb
      have hcpos : 0 < content.length := List.length_pos.mpr hc
      have hlen : (content.drop blockSize).length ≤ n := by
        rw [List.length_drop]
        omega
      rw [ih (content.drop blockSize) _ hlen, List.take_append_drop]

theorem md5ReadChunks_no_cap (blockSize : Nat) (hb : blockSize ≠ 0)
    (content : List Nat) (readSoFar : Nat) :
    md5ReadChunks blockSize 0 content readSoFar = content :=
  md5ReadChunksFuel_no_cap blockSize hb content.length content readSoFar le_rfl

theorem md5ReadChunksFuel_cap_bound (blockSize maxBytes : Nat)
    (hmax : 0 < maxBytes) (fuel : Nat) :
    ∀ (content : List Nat) (r : Nat), content.length ≤ fuel → r < maxBytes →
      r + (md5ReadChunksFuel blockSize maxBytes fuel content r).length <
        maxBytes + blockSize := by
  induction fuel with
  | zero =>
    intro content r h hrm
    simp [md5ReadChunksFuel]
    omega
  | succ n ih =>
    intro content r h hrm
    simp only [md5ReadChunksFuel]
    by_cases hg : blockSize = 0 ∨ content = []
    · rw [if_pos hg]
      simp
      omega
    · push_neg at hg
      rw [if_neg (not_or_intro hg.1 hg.2)]
      have hchunk : (content.take blockSize).length ≤ blockSize := by
        rw [List.length_take]
        omega
      by_cases hstop : 0 < maxBytes ∧ maxBytes ≤ r + (content.take blockSize).length
      · rw [if_pos hstop]
        omega
      · rw [if_neg hstop]
        have hlt : r + (content.take blockSize).length < maxBytes := by
          rcases Nat.lt_or_ge (r + (content.take blockSize).length) maxBytes with hx | hx
          · exact hx
          · exact absurd ⟨hmax, hx⟩ hstop
        have hpos : 0 < blockSize := Nat.pos_of_ne_zero hg.1
        have hcpos : 0 < content.length := List.length_pos.mpr hg.2
        have hlen : (content.drop blockSize).length ≤ n := by
          rw [List.length_drop]
          omega
        have := ih (content.drop blockSize) (r + (content.take blockSize).length) hlen hlt
        rw [List.length_append]
        omega

theorem md5ReadChunks_cap_bound (blockSize maxBytes : Nat) (content : List Nat)
    (readSoFar : Nat) (hmax : 0 < maxBytes) (hr : readSoFar < maxBytes) :
    readSoFar + (md5ReadChunks blockSize maxBytes content readSoFar).length <
      maxBytes + blockSize :=
  md5ReadChunksFuel_cap_bound blockSize maxBytes hmax content.length content
    readSoFar le_rfl hr

theorem effBlockSize_ne_zero (a : Args) : effBlockSize a ≠ 0 := by
  unfold effBlockSize
  by_cases h : a.md5_block_size = 0 <;> simp [h]

theorem calculateMd5_default_spec (md5 : List Nat → Digest) (a : Args)
    (content : List Nat) (fileSize : Nat) (h : a.md5_mode = .DEFAULT) :
    (calculateMd5 md5 a content fileSize).1 =
        md5 (content.take (calculateMd5 md5 a content fileSize).2) ∧
      (calculateMd5 md5 a content fileSize).2 ≤ content.length ∧
      (a.md5_max_size = 0 → (calculateMd5 md5 a content fileSize).2 = content.length) ∧
      (0 < a.md5_max_size →
        (calculateMd5 md5 a content fileSize).2 <
          a.md5_max_size * 1024 + effBlockSize a) := by
  unfold calculateMd5
  rw [h]
  refine ⟨?_, ?_, ?_, ?_⟩
  · simp only
    rw [← md5ReadChunks_eq_take]
  · simp only
    exact md5ReadChunks_length_le _ _ _ _
  · intro h0
    simp only [h0, Nat.zero_mul]
    rw [md5ReadChunks_no_cap _ (effBlockSize_ne_zero a)]
  · intro hpos
    have hmb : 0 < a.md5_max_size * 1024 := by omega
    have := md5ReadChunks_cap_bound (effBlockSize a) (a.md5_max_size * 1024)
      content 0 hmb hmb
    simpa using this

theorem findDuplicateFiles_name_eq (files : List (String × List FileInfo)) :
    findDuplicateFiles .NAME files =
      groupFold (fun fi => FileId.name fi.filename) id [] (allRecords files) := rfl

theorem findDuplicateFiles_namesize_eq (files : List (String × List FileInfo)) :
    findDuplicateFiles .NAMESIZE files =
      groupFold (fun fi => FileId.namesize fi.filename fi.size) id []
        (allRecords files) := rfl

theorem cachePass_foldl_fst (env : PipelineEnv) (loaded : List (String × CacheEntry))
    (l : List FileInfo) (s : List (Digest × List FileInfo) × List (FileInfo × String)) :
    (l.foldl (cachePassStep env loaded) s).1 =
      groupFold (fun x => x.2.md5) (fun x => enrichHit x.1 x.2) s.1
        (l.filterMap (fun fi => (cacheDecision env loaded fi).map (fun e => (fi, e)))) := by
  induction l generalizing s with
  | nil => simp [groupFold]
  | cons fi l ih =>
    rw [List.foldl_cons, ih]
    unfold cachePassStep
    rcases hd : cacheDecision env loaded fi with _ | e
    · simp [hd]
    · simp [hd, groupFold]

theorem cachePass_foldl_snd (env : PipelineEnv) (loaded : List (String × CacheEntry))
    (l : List FileInfo) (s : List (Digest × List FileInfo) × List (FileInfo × String)) :
    (l.foldl (cachePassStep env loaded) s).2 =
      s.2 ++ (l.filter (fun fi => cacheDecision env loaded fi = none)).map
        (fun fi => (fi, fullPathOf fi)) := by
  induction l generalizing s with
  | nil => simp
  | cons fi l ih =>
    rw [List.foldl_cons, ih]
    unfold cachePassStep
    rcases hd : cacheDecision env loaded fi with _ | e
    · simp [hd, List.filter_cons]
    · simp [hd, List.filter_cons]

theorem hashPhase_foldl_dup (env : PipelineEnv) (l : List (FileInfo × String))
    (s : HashPhaseState) :
    (l.foldl (hashPhaseStep env) s).dup =
      groupFold Prod.fst Prod.snd s.dup (hashSuccesses env l) := by
  induction l generalizing s with
  | nil => simp [groupFold, hashSuccesses]
  | cons it l ih =>
    rw [List.foldl_cons, ih]
    unfold hashPhaseStep
    cases hh : env.hashFn it.1 with
    | success d rs => simp [hh, hashSuccesses, List.filterMap_cons, groupFold]
    | failure msg => simp [hh, hashSuccesses, List.filterMap_cons]

theorem hashPhase_foldl_skipped (env : PipelineEnv) (l : List (FileInfo × String))
    (s : HashPhaseState) :
    (l.foldl (hashPhaseStep env) s).skipped =
      s.skipped ++ hashFailures env l := by
  induction l generalizing s with
  | nil => simp [hashFailures]
  | cons it l ih =>
    rw [List.foldl_cons, ih]
    unfold hashPhaseStep
    cases hh : env.hashFn it.1 with
    | success d rs => simp [hh, hashFailures, List.filterMap_cons]
    | failure msg => simp [hh, hashFailures, List.filterMap_cons]

theorem hashPhase_foldl_cache (env : PipelineEnv) (l : List (FileInfo × String))
    (s : HashPhaseState) :
    (l.foldl (hashPhaseStep env) s).cache =
      (cacheInserts env l).foldl (fun c kv => alInsert c kv.1 kv.2) s.cache := by
  induction l generalizing s with
  | nil => simp [cacheInserts]
  | cons it l ih =>
    rw [List.foldl_cons, ih]
    unfold hashPhaseStep
    cases hh : env.hashFn it.1 with
    | success d rs =>
      by_cases hc : env.args.md5_cache
      · rcases hst : env.stat it.2 with _ | st
        · simp [hh, hc, hst, cacheInserts, List.filterMap_cons]
        · simp [hh, hc, hst, cacheInserts, List.filterMap_cons]
      · simp [hh, hc, cacheInserts, List.filterMap_cons]
    | failure msg => simp [hh, cacheInserts, List.filterMap_cons]

theorem needingOf_eq (env : PipelineEnv) (loaded : List (String × CacheEntry))
    (files : List (String × List FileInfo)) :
    needingOf env loaded files =
      ((flattenedCandidates files).filter
        (fun fi => cacheDecision env loaded fi = none)).map
        (fun fi => (fi, fullPathOf fi)) := by
  unfold needingOf cachePass
  rw [cachePass_foldl_snd]
  simp

/-- Within-group order of the final duplicate map: all cache hits of the
requested digest first (in triage order), then all fresh successful hashes
of that digest (in queue order). -/
theorem pipeline_group_eq (env : PipelineEnv) (loaded : List (String × CacheEntry))
    (files : List (String × List FileInfo)) (d : Digest) :
    alGroup (findDuplicateFilesMd5SizeFirst env loaded files).dup d =
      ((cacheHits env loaded files).filter (fun x => x.2.md5 = d)).map
        (fun x => enrichHit x.1 x.2) ++
      ((hashSuccesses env (needingOf env loaded files)).filter
        (fun x => x.1 = d)).map Prod.snd := by
  unfold findDuplicateFilesMd5SizeFirst
  rw [hashPhase_foldl_dup, alGroup_groupFold]
  congr 1
  show alGroup (cachePass env loaded files).1 d = _
  unfold cachePass
  rw [cachePass_foldl_fst, alGroup_groupFold]
  simp [cacheHits, alGroup, alLookup]

theorem pipeline_skipped_eq (env : PipelineEnv) (loaded : List (String × CacheEntry))
    (files : List (String × List FileInfo)) :
    (findDuplicateFilesMd5SizeFirst env loaded files).skipped =
      hashFailures env (needingOf env loaded files) := by
  unfold findDuplicateFilesMd5SizeFirst
  rw [hashPhase_foldl_skipped]
  rfl

theorem pipeline_cache_eq (env : PipelineEnv) (loaded : List (String × CacheEntry))
    (files : List (String × List FileInfo)) :
    (findDuplicateFilesMd5SizeFirst env loaded files).cache =
      (cacheInserts env (needingOf env loaded files)).foldl
        (fun c kv => alInsert c kv.1 kv.2) loaded := by
  unfold findDuplicateFilesMd5SizeFirst
  rw [hashPhase_foldl_cache]
  rfl

/-! ### Claim theorems -/

theorem identOf_enrichHit (fi : FileInfo) (e : CacheEntry) :
    identOf (enrichHit fi e) = identOf fi := rfl

theorem identOf_enrichHashed (fi : FileInfo) (d : Digest) (rs : Nat) :
    identOf (enrichHashed fi d rs) = identOf fi := rfl

theorem alLookup_foldl_alInsert_of_not_mem {κ β : Type} [DecidableEq κ]
    (ins : List (κ × β)) (c₀ : List (κ × β)) (k : κ)
    (hk : k ∉ ins.map Prod.fst) :
    alLookup (ins.foldl (fun c kv => alInsert c kv.1 kv.2) c₀) k =
      alLookup c₀ k := by
  induction ins generalizing c₀ with
  | nil => simp
  | cons kv ins ih =>
    simp only [List.map_cons, List.mem_cons] at hk
    push_neg at hk
    rw [List.foldl_cons, ih _ hk.2, alLookup_alInsert, if_neg hk.1]

theorem alLookup_foldl_alInsert_isSome {κ β : Type} [DecidableEq κ]
    (ins : List (κ × β)) (c₀ : List (κ × β)) (k : κ)
    (h : (alLookup c₀ k).isSome) :
    (alLookup (ins.foldl (fun c kv => alInsert c kv.1 kv.2) c₀) k).isSome := by
  induction ins generalizing c₀ with
  | nil => simpa
  | cons kv ins ih =>
    rw [List.foldl_cons]
    apply ih
    rw [alLookup_alInsert]
    by_cases hk : k = kv.1 <;> simp [hk, h]

/-- C3: `_is_cache_hit` returns true if and only if the entry's recorded
size, modification time (compared via `mtime_ns` at nanosecond precision
when the entry recorded it, else via `mtime` at second precision), hashing
mode string, and `md5_max_size` setting (0 when the entry lacks the key) all
equal the current stat and configuration; any mismatch yields a miss. -/
theorem C3_cache_hit_iff_exact_match (e : CacheEntry) (st : FileStat) (a : Args) :
    isCacheHit e st a = true ↔
      (e.size = some st.st_size ∧
        ((∃ ns, e.mtime_ns = some ns ∧ ns = nsOf st) ∨
          (e.mtime_ns = none ∧ e.mtime = some st.st_mtime)) ∧
        e.md5_mode = some a.md5_mode.str ∧
        e.md5_max_size.getD 0 = a.md5_max_size) := by
  unfold isCacheHit isCacheHitModes
  cases hns : e.mtime_ns with
  | none =>
    by_cases h1 : e.size = some st.st_size <;>
      by_cases h2 : e.mtime = some st.st_mtime <;>
        by_cases h3 : e.md5_mode = some a.md5_mode.str <;>
          by_cases h4 : e.md5_max_size.getD 0 = a.md5_max_size <;>
            simp [h1, h2, h3, h4, hns]
  | some ns =>
    by_cases h1 : e.size = some st.st_size <;>
      by_cases h2 : ns = nsOf st <;>
        by_cases h3 : e.md5_mode = some a.md5_mode.str <;>
          by_cases h4 : e.md5_max_size.getD 0 = a.md5_max_size <;>
            simp [h1, h2, h3, h4, hns]

/-- C8: in the DEFAULT (in-process) mode, `calculate_md5` returns a digest of
exactly the first `read_size` bytes of the content; `read_size` never
exceeds the content length; without a byte cap it equals the content length;
and with a cap of N kilobytes it is below N*1024 plus the effective block
size (the cap can be overshot by at most one block minus one byte, the
overshoot being included in both digest and count). -/
theorem C8_calculate_md5_read_size_spec (md5 : List Nat → Digest) (a : Args)
    (content : List Nat) (fileSize : Nat) (h : a.md5_mode = .DEFAULT) :
    (calculateMd5 md5 a content fileSize).1 =
        md5 (content.take (calculateMd5 md5 a content fileSize).2) ∧
      (calculateMd5 md5 a content fileSize).2 ≤ content.length ∧
      (a.md5_max_size = 0 →
        (calculateMd5 md5 a content fileSize).2 = content.length) ∧
      (0 < a.md5_max_size →
        (calculateMd5 md5 a content fileSize).2 <
          a.md5_max_size * 1024 + effBlockSize a) :=
  calculateMd5_default_spec md5 a content fileSize h

/-- Witness for C8 at a concrete capped configuration and content. -/
theorem C8_witness :
    argsCapBlock.md5_mode = MD5Mode.DEFAULT ∧
      ((calculateMd5 md5Len argsCapBlock (List.replicate 1025 3) 1025).1 =
          md5Len ((List.replicate 1025 3).take
            (calculateMd5 md5Len argsCapBlock (List.replicate 1025 3) 1025).2) ∧
        (calculateMd5 md5Len argsCapBlock (List.replicate 1025 3) 1025).2 ≤
          (List.replicate 1025 3).length ∧
        (argsCapBlock.md5_max_size = 0 →
          (calculateMd5 md5Len argsCapBlock (List.replicate 1025 3) 1025).2 =
            (List.replicate 1025 3).length) ∧
        (0 < argsCapBlock.md5_max_size →
          (calculateMd5 md5Len argsCapBlock (List.replicate 1025 3) 1025).2 <
            argsCapBlock.md5_max_size * 1024 + effBlockSize argsCapBlock)) :=
  ⟨rfl, C8_calculate_md5_read_size_spec md5Len argsCapBlock (List.replicate 1025 3) 1025 rfl⟩

/-- Core characterization of the NAME / NAMESIZE grouping loop in terms of
its total key function. -/
theorem findDuplicateFiles_main (mode : CompareMode)
    (files : List (String × List FileInfo)) (keyf : FileInfo → FileId)
    (hkey : ∀ fi, fileIdOf mode fi = some (keyf fi))
    (heq : findDuplicateFiles mode files = groupFold keyf id [] (allRecords files)) :
    (∀ k : FileId, alGroup (findDuplicateFiles mode files) k =
        (allRecords files).filter (fun fi => fileIdOf mode fi = some k)) ∧
      (∀ fi ∈ allRecords files, ∃ k : FileId, fileIdOf mode fi = some k ∧
        fi ∈ alGroup (findDuplicateFiles mode files) k) ∧
      (∀ k : FileId, alLookup (findDuplicateFiles mode files) k = none ↔
        (allRecords files).filter (fun fi => fileIdOf mode fi = some k) = []) ∧
      groupSizes (findDuplicateFiles mode files) = (allRecords files).length := by
  have hfilter : ∀ k : FileId,
      (allRecords files).filter (fun fi => keyf fi = k) =
        (allRecords files).filter (fun fi => fileIdOf mode fi = some k) := by
    intro k
    apply List.filter_congr
    intro fi _
    rw [hkey fi]
    by_cases hk : keyf fi = k <;> simp [hk]
  have hchar : ∀ k : FileId, alGroup (findDuplicateFiles mode files) k =
      (allRecords files).filter (fun fi => fileIdOf mode fi = some k) := by
    intro k
    rw [heq, alGroup_groupFold, ← hfilter k]
    simp [alGroup, alLookup]
  refine ⟨hchar, ?_, ?_, ?_⟩
  · intro fi hfi
    refine ⟨keyf fi, hkey fi, ?_⟩
    rw [hchar]
    apply List.mem_filter.mpr
    exact ⟨hfi, by simp [hkey fi]⟩
  · intro k
    rw [heq, alLookup_groupFold_eq_none, ← hfilter k]
    simp [alLookup]
  · rw [heq, groupSizes_groupFold]
    simp [groupSizes]

theorem findDuplicateFiles_spec (mode : CompareMode)
    (files : List (String × List FileInfo))
    (h : mode = .NAME ∨ mode = .NAMESIZE) :
    (∀ k : FileId, alGroup (findDuplicateFiles mode files) k =
        (allRecords files).filter (fun fi => fileIdOf mode fi = some k)) ∧
      (∀ fi ∈ allRecords files, ∃ k : FileId, fileIdOf mode fi = some k ∧
        fi ∈ alGroup (findDuplicateFiles mode files) k) ∧
      (∀ k : FileId, alLookup (findDuplicateFiles mode files) k = none ↔
        (allRecords files).filter (fun fi => fileIdOf mode fi = some k) = []) ∧
      groupSizes (findDuplicateFiles mode files) = (allRecords files).length := by
  rcases h with h | h
  · subst h
    exact findDuplicateFiles_main _ files (fun fi => .name fi.filename) (fun fi => rfl)
      (findDuplicateFiles_name_eq files)
  · subst h
    exact findDuplicateFiles_main _ files (fun fi => .namesize fi.filename fi.size)
      (fun fi => rfl) (findDuplicateFiles_namesize_eq files)

/-- C9: in the NAME and NAMESIZE modes the returned map partitions the input
records: each group is exactly the discovery-ordered sublist of records
carrying its key, every record belongs to the group of its own key
(singleton keys included), a key is absent only when no record carries it,
and the group lengths sum to the number of input records. -/
theorem C9_name_namesize_partition (mode : CompareMode)
    (files : List (String × List FileInfo))
    (h : mode = .NAME ∨ mode = .NAMESIZE) :
    (∀ k : FileId, alGroup (findDuplicateFiles mode files) k =
        (allRecords files).filter (fun fi => fileIdOf mode fi = some k)) ∧
      (∀ fi ∈ allRecords files, ∃ k : FileId, fileIdOf mode fi = some k ∧
        fi ∈ alGroup (findDuplicateFiles mode files) k) ∧
      (∀ k : FileId, alLookup (findDuplicateFiles mode files) k = none ↔
        (allRecords files).filter (fun fi => fileIdOf mode fi = some k) = []) ∧
      groupSizes (findDuplicateFiles mode files) = (allRecords files).length :=
  findDuplicateFiles_spec mode files h

/-- Witness for C9 on the concrete X, Y, Z input in NAME mode. -/
theorem C9_witness :
    (CompareMode.NAME = CompareMode.NAME ∨ CompareMode.NAME = CompareMode.NAMESIZE) ∧
      ((∀ k : FileId, alGroup (findDuplicateFiles .NAME filesXYZ) k =
          (allRecords filesXYZ).filter (fun fi => fileIdOf .NAME fi = some k)) ∧
        (∀ fi ∈ allRecords filesXYZ, ∃ k : FileId, fileIdOf .NAME fi = some k ∧
          fi ∈ alGroup (findDuplicateFiles .NAME filesXYZ) k) ∧
        (∀ k : FileId, alLookup (findDuplicateFiles .NAME filesXYZ) k = none ↔
          (allRecords filesXYZ).filter (fun fi => fileIdOf .NAME fi = some k) = []) ∧
        groupSizes (findDuplicateFiles .NAME filesXYZ) = (allRecords filesXYZ).length) :=
  ⟨Or.inl rfl, C9_name_namesize_partition .NAME filesXYZ (Or.inl rfl)⟩

/-- C5 counterexample: on X, Y, Z named "a", "a", "b", the grouping step
(`find_duplicate_files`) returns the key "b" mapped to the singleton [Z] —
the claim asserts "b" is absent from the returned map. -/
theorem C5_counterexample :
    findDuplicateFiles .NAME filesXYZ =
        [(.name "a", [fX, fY]), (.name "b", [fZ])] ∧
      alLookup (findDuplicateFiles .NAME filesXYZ) (.name "b") = some [fZ] := by
  constructor <;> rfl

/-- C5 amended: the grouping step returns both groups, singleton included
({"a": [X, Y], "b": [Z]}); the key "b" is dropped only by the exporters'
duplicates filter (groups with more than one member), whose output is
exactly {"a": [X, Y]}. -/
theorem C5_amended_grouping_vs_export :
    findDuplicateFiles .NAME filesXYZ =
        [(.name "a", [fX, fY]), (.name "b", [fZ])] ∧
      realDuplicates (findDuplicateFiles .NAME filesXYZ) =
        [(.name "a", [fX, fY])] := by
  constructor <;> rfl

/-- C2 counterexample: an instability detected on the first attempt is a
final failure — the hasher does not retry — even though the second and third
attempts (the shifted environment) would have succeeded; the claim asserts a
retry would have been triggered. -/
theorem C2_counterexample :
    calcMd5WithStabilityCheck true envUnstableFirst =
        ([], 0, false, "File changed during hashing (size: 10->11, mtime: 5->5)") ∧
      calcMd5WithStabilityCheck true (fun n => envUnstableFirst (n + 1)) =
        ([7], 10, true, "") := by
  constructor <;> rfl

/-- C2 amended: only I/O failures are retried (up to 3 attempts total, with
a fixed delay between attempts); an instability detection — size or mtime
changed between the pre- and post-hash stats — is a final failure on the
attempt where it occurs, regardless of the later attempts' environments.
Part 1: instability on attempt 0 fails immediately; part 2: read errors on
attempts 0 and 1 are retried and a clean attempt 2 succeeds; part 3: read
errors on all 3 attempts exhaust the budget with the last error reported. -/
theorem C2_amended_retry_only_for_io (env : Nat → AttemptEnv) :
    (∀ stB d rs stA,
      (env 0).statBefore = .ok stB →
      (env 0).md5Res = .ok (d, rs) →
      (env 0).statAfter = .ok stA →
      (stB.st_size ≠ stA.st_size ∨ stB.st_mtime ≠ stA.st_mtime) →
      calcMd5WithStabilityCheck true env =
        ([], 0, false, "File changed during hashing (size: " ++
          toString stB.st_size ++ "->" ++ toString stA.st_size ++
          ", mtime: " ++ toString stB.st_mtime ++ "->" ++
          toString stA.st_mtime ++ ")")) ∧
    (∀ st0 st1 e0 e1 stB d rs,
      (env 0).statBefore = .ok st0 →
      (env 0).md5Res = .error e0 →
      (env 1).statBefore = .ok st1 →
      (env 1).md5Res = .error e1 →
      (env 2).statBefore = .ok stB →
      (env 2).md5Res = .ok (d, rs) →
      (env 2).statAfter = .ok stB →
      calcMd5WithStabilityCheck true env = (d, rs, true, "")) ∧
    (∀ e0 e1 e2,
      (env 0).md5Res = .error e0 →
      (env 1).md5Res = .error e1 →
      (env 2).md5Res = .error e2 →
      calcMd5WithStabilityCheck false env =
        ([], 0, false, "Failed to read file after 3 attempts: " ++ e2)) := by
  refine ⟨?_, ?_, ?_⟩
  · intro stB d rs stA h1 h2 h3 hne
    simp only [calcMd5WithStabilityCheck, maxRetries, calcMd5StabilityLoop, h1, h2, h3]
    rw [if_pos hne]
    simp
  · intro st0 st1 e0 e1 stB d rs h0b h0m h1b h1m h2b h2m h2a
    simp only [calcMd5WithStabilityCheck, maxRetries, calcMd5StabilityLoop,
      h0b, h0m, h1b, h1m, h2b, h2m, h2a]
    norm_num
  · intro e0 e1 e2 h0 h1 h2
    simp only [calcMd5WithStabilityCheck, maxRetries, calcMd5StabilityLoop, h0, h1, h2]
    norm_num

/-- Witness for C2 amended: the instability-is-final part at the concrete
unstable-first environment, and the I/O-retry part at the concrete
fails-twice environment. -/
theorem C2_witness :
    calcMd5WithStabilityCheck true envUnstableFirst =
        ([], 0, false, "File changed during hashing (size: 10->11, mtime: 5->5)") ∧
      calcMd5WithStabilityCheck true envIoTwice = ([7], 10, true, "") :=
  ⟨by
    have h := (C2_amended_retry_only_for_io envUnstableFirst).1 stC2a [7] 10 stC2b
      rfl rfl rfl (Or.inl (by decide))
    simpa using h,
   (C2_amended_retry_only_for_io envIoTwice).2.1 stC2a stC2a "io" "io" stC2a [7] 10
    rfl rfl rfl rfl rfl rfl rfl⟩

/-- C7: a record whose hashing attempt ultimately fails is recorded in
`skipped_files` with its path and the failure reason, and no record with its
identity appears in any group of the returned duplicate map (the identity
hypothesis says the input carries a single record per path+filename). -/
theorem C7_failed_hash_skipped_and_excluded (env : PipelineEnv)
    (loaded : List (String × CacheEntry)) (files : List (String × List FileInfo))
    (fi : FileInfo) (fp : String) (msg : String)
    (hmem : (fi, fp) ∈ needingOf env loaded files)
    (hfail : env.hashFn fi = .failure msg)
    (hid : ∀ fj ∈ flattenedCandidates files, identOf fj = identOf fi → fj = fi) :
    (⟨fi.path, fi.filename, msg⟩ : SkippedFile) ∈
        (findDuplicateFilesMd5SizeFirst env loaded files).skipped ∧
      ∀ (d : Digest) (r : FileInfo),
        r ∈ alGroup (findDuplicateFilesMd5SizeFirst env loaded files).dup d →
        identOf r ≠ identOf fi := by
  have hdec : cacheDecision env loaded fi = none := by
    rw [needingOf_eq] at hmem
    rcases List.mem_map.mp hmem with ⟨fj, hfj, hfj2⟩
    have : fj = fi := congrArg Prod.fst hfj2
    subst this
    exact of_decide_eq_true (List.mem_filter.mp hfj).2
  constructor
  · rw [pipeline_skipped_eq]
    unfold hashFailures
    apply List.mem_filterMap.mpr
    refine ⟨(fi, fp), hmem, ?_⟩
    simp [hfail]
  · intro d r hr heq
    rw [pipeline_group_eq] at hr
    rcases List.mem_append.mp hr with hr | hr
    · rcases List.mem_map.mp hr with ⟨x, hx, hxr⟩
      have hxc : x ∈ cacheHits env loaded files := List.mem_of_mem_filter hx
      rcases List.mem_filterMap.mp hxc with ⟨fj, hfj, hfj2⟩
      rcases Option.map_eq_some'.mp hfj2 with ⟨e, he, hee⟩
      have hident : identOf r = identOf fj := by
        rw [← hxr, ← hee]
        rfl
      have : fj = fi := hid fj hfj (by rw [← hident, heq])
      subst this
      rw [hdec] at he
      exact Option.noConfusion he
    · rcases List.mem_map.mp hr with ⟨x, hx, hxr⟩
      have hxs : x ∈ hashSuccesses env (needingOf env loaded files) :=
        List.mem_of_mem_filter hx
      rcases List.mem_filterMap.mp hxs with ⟨it, hit, hit2⟩
      cases hres : env.hashFn it.1 with
      | success d' rs' =>
        rw [hres] at hit2
        have hx2 : x = (d', enrichHashed it.1 d' rs') := ((Option.some.injEq _ _).mp hit2).symm
        have hident : identOf r = identOf it.1 := by
          rw [← hxr, hx2]
          rfl
        have hitmem : it.1 ∈ flattenedCandidates files := by
          rw [needingOf_eq] at hit
          rcases List.mem_map.mp hit with ⟨fj, hfj, hfj2⟩
          have : fj = it.1 := congrArg Prod.fst hfj2
          subst this
          exact List.mem_of_mem_filter hfj
        have : it.1 = fi := hid it.1 hitmem (by rw [← hident, heq])
        rw [this, hfail] at hres
        exact HashResult.noConfusion hres
      | failure msg' =>
        rw [hres] at hit2
        exact Option.noConfusion hit2

/-- Witness for C7: the concrete run where hashing h1 fails. -/
theorem C7_witness :
    ((hA, "/r/h1") ∈ needingOf envFailH1 [] filesHH) ∧
      envFailH1.hashFn hA = .failure "Failed to read file after 3 attempts: io" ∧
      ((⟨hA.path, hA.filename, "Failed to read file after 3 attempts: io"⟩ : SkippedFile) ∈
          (findDuplicateFilesMd5SizeFirst envFailH1 [] filesHH).skipped ∧
        ∀ (d : Digest) (r : FileInfo),
          r ∈ alGroup (findDuplicateFilesMd5SizeFirst envFailH1 [] filesHH).dup d →
          identOf r ≠ identOf hA) :=
  ⟨by decide, rfl,
   C7_failed_hash_skipped_and_excluded envFailH1 [] filesHH hA "/r/h1"
     "Failed to read file after 3 attempts: io" (by decide) rfl (by decide)⟩

/-- C10: the in-memory cache mapping only gains or overwrites entries:
every loaded entry whose key is not re-inserted by the run's fresh hashes is
present unchanged in the saved cache, and no loaded key disappears. -/
theorem C10_cache_only_grows (env : PipelineEnv)
    (loaded : List (String × CacheEntry)) (files : List (String × List FileInfo))
    (k : String)
    (hk : k ∉ (cacheInserts env (needingOf env loaded files)).map Prod.fst) :
    alLookup (findDuplicateFilesMd5SizeFirst env loaded files).cache k =
        alLookup loaded k ∧
      ∀ k' : String, (alLookup loaded k').isSome →
        (alLookup (findDuplicateFilesMd5SizeFirst env loaded files).cache k').isSome := by
  rw [pipeline_cache_eq]
  refine ⟨alLookup_foldl_alInsert_of_not_mem _ _ _ hk, ?_⟩
  intro k' h
  exact alLookup_foldl_alInsert_isSome _ _ _ h

/-- Witness for C10: a concrete cached run in which the pre-existing entry
under "/old" (not re-hashed) survives the save unchanged. -/
theorem C10_witness :
    ("/old" ∉ (cacheInserts envCacheGrow (needingOf envCacheGrow loadedOld filesHH)).map
        Prod.fst) ∧
      (alLookup (findDuplicateFilesMd5SizeFirst envCacheGrow loadedOld filesHH).cache
          "/old" = alLookup loadedOld "/old" ∧
        ∀ k' : String, (alLookup loadedOld k').isSome →
          (alLookup (findDuplicateFilesMd5SizeFirst envCacheGrow loadedOld
            filesHH).cache k').isSome) :=
  ⟨by decide, C10_cache_only_grows envCacheGrow loadedOld filesHH "/old" (by decide)⟩

/-- C1 counterexample: a content-mode run (sequential path) in which the
discovery order is [cA, cB] but the group of digest [9] lists cB — a cache
hit — before the freshly hashed, earlier-discovered cA: cache-hit records
are reordered ahead of freshly hashed records, refuting the claimed
first-seen order. -/
theorem C1_counterexample :
    allRecords filesCC = [cA, cB] ∧
      (alGroup (findDuplicateFilesMd5SizeFirst envHitB loadedHitB filesCC).dup [9]).map
          identOf = [identOf cB, identOf cA] ∧
      [identOf cB, identOf cA] ≠ [identOf cA, identOf cB] := by
  refine ⟨rfl, rfl, by decide⟩

/-- C1 amended: the first-seen-order guarantee holds for the NAME and
NAMESIZE modes (each group is an order-preserving sublist of the discovery
order).  In content mode (sequential path) a group is instead the cache-hit
records of its digest first, in triage (size-group, then discovery) order,
followed by the freshly hashed records of its digest in hashing-queue
order; cache hits are therefore reordered ahead of earlier-discovered
fresh records, and first-seen order is only recovered when a group contains
no cache hits and spans a single size. -/
theorem C1_amended_group_order (mode : CompareMode)
    (files : List (String × List FileInfo))
    (hmode : mode = .NAME ∨ mode = .NAMESIZE) :
    (∀ (k : FileId) (g : List FileInfo),
        alLookup (findDuplicateFiles mode files) k = some g →
        g.Sublist (allRecords files)) ∧
      (∀ (env : PipelineEnv) (loaded : List (String × CacheEntry))
          (files' : List (String × List FileInfo)) (d : Digest),
        alGroup (findDuplicateFilesMd5SizeFirst env loaded files').dup d =
          ((cacheHits env loaded files').filter (fun x => x.2.md5 = d)).map
            (fun x => enrichHit x.1 x.2) ++
          ((hashSuccesses env (needingOf env loaded files')).filter
            (fun x => x.1 = d)).map Prod.snd) := by
  constructor
  · intro k g hg
    have hgr : g = alGroup (findDuplicateFiles mode files) k := by
      simp [alGroup, hg]
    rw [hgr, (findDuplicateFiles_spec mode files hmode).1 k]
    exact List.filter_sublist _
  · intro env loaded files' d
    exact pipeline_group_eq env loaded files' d

/-- Witness for C1 amended at the NAME mode on the concrete X, Y, Z input. -/
theorem C1_witness :
    (CompareMode.NAME = CompareMode.NAME ∨ CompareMode.NAME = CompareMode.NAMESIZE) ∧
      ((∀ (k : FileId) (g : List FileInfo),
          alLookup (findDuplicateFiles .NAME filesXYZ) k = some g →
          g.Sublist (allRecords filesXYZ)) ∧
        (∀ (env : PipelineEnv) (loaded : List (String × CacheEntry))
            (files' : List (String × List FileInfo)) (d : Digest),
          alGroup (findDuplicateFilesMd5SizeFirst env loaded files').dup d =
            ((cacheHits env loaded files').filter (fun x => x.2.md5 = d)).map
              (fun x => enrichHit x.1 x.2) ++
            ((hashSuccesses env (needingOf env loaded files')).filter
              (fun x => x.1 = d)).map Prod.snd)) :=
  ⟨Or.inl rfl, C1_amended_group_order .NAME filesXYZ (Or.inl rfl)⟩

theorem pipeline_mem_group_md5 (env : PipelineEnv)
    (loaded : List (String × CacheEntry)) (files : List (String × List FileInfo))
    (d : Digest) (r : FileInfo)
    (hr : r ∈ alGroup (findDuplicateFilesMd5SizeFirst env loaded files).dup d) :
    r.md5 = some d := by
  rw [pipeline_group_eq] at hr
  rcases List.mem_append.mp hr with hr | hr
  · rcases List.mem_map.mp hr with ⟨x, hx, hxr⟩
    have hd : x.2.md5 = d := of_decide_eq_true (List.mem_filter.mp hx).2
    rw [← hxr, ← hd]
    rfl
  · rcases List.mem_map.mp hr with ⟨x, hx, hxr⟩
    have hd : x.1 = d := of_decide_eq_true (List.mem_filter.mp hx).2
    have hxs : x ∈ hashSuccesses env (needingOf env loaded files) :=
      List.mem_of_mem_filter hx
    unfold hashSuccesses at hxs
    rcases List.mem_filterMap.mp hxs with ⟨it, _, hit2⟩
    cases hres : env.hashFn it.1 with
    | success d' rs' =>
      rw [hres] at hit2
      have hx2 : x = (d', enrichHashed it.1 d' rs') :=
        ((Option.some.injEq _ _).mp hit2).symm
      rw [← hxr, hx2]
      simp only [← hd, hx2]
      rfl
    | failure msg' =>
      rw [hres] at hit2
      exact Option.noConfusion hit2

theorem pipeline_success_mem_group (env : PipelineEnv)
    (loaded : List (String × CacheEntry)) (files : List (String × List FileInfo))
    (it : FileInfo × String) (d : Digest) (rs : Nat)
    (hit : it ∈ needingOf env loaded files)
    (hs : env.hashFn it.1 = .success d rs) :
    enrichHashed it.1 d rs ∈
      alGroup (findDuplicateFilesMd5SizeFirst env loaded files).dup d := by
  rw [pipeline_group_eq]
  apply List.mem_append_right
  apply List.mem_map.mpr
  refine ⟨(d, enrichHashed it.1 d rs), ?_, rfl⟩
  apply List.mem_filter.mpr
  constructor
  · unfold hashSuccesses
    apply List.mem_filterMap.mpr
    refine ⟨it, hit, ?_⟩
    rw [hs]
  · simp

/-- C6 counterexample: with a 1 KB cap and a 2048-byte block, a 1025-byte
file is read in full — `read_size = 1025 > 1024` — refuting "the hasher
reads at most N*1024 bytes". -/
theorem C6_counterexample :
    (calculateMd5 md5Len argsCapBlock (List.replicate 1025 3) 1025).2 = 1025 ∧
      ¬(1025 ≤ argsCapBlock.md5_max_size * 1024) := by
  refine ⟨by rfl, by decide⟩

/-- C6 amended: with a byte cap of N kilobytes the digest covers exactly the
first `read_size` bytes actually consumed, where `read_size` may exceed
N*1024 by up to one block minus one byte (`read_size < N*1024 + blockSize`);
the recorded bytes-read count never participates in duplicate equality: a
successfully hashed record is grouped under precisely its digest, and every
member of a group carries that group's digest, so two hashed files share a
group if and only if their capped digests are equal. -/
theorem C6_amended_cap_and_digest_only_equality (md5 : List Nat → Digest)
    (a : Args) (content : List Nat) (fileSize : Nat)
    (h : a.md5_mode = .DEFAULT) (hcap : 0 < a.md5_max_size) :
    ((calculateMd5 md5 a content fileSize).1 =
        md5 (content.take (calculateMd5 md5 a content fileSize).2) ∧
      (calculateMd5 md5 a content fileSize).2 <
        a.md5_max_size * 1024 + effBlockSize a) ∧
      (∀ (env : PipelineEnv) (loaded : List (String × CacheEntry))
          (files : List (String × List FileInfo)) (it : FileInfo × String)
          (d : Digest) (rs : Nat),
        it ∈ needingOf env loaded files →
        env.hashFn it.1 = .success d rs →
        enrichHashed it.1 d rs ∈
          alGroup (findDuplicateFilesMd5SizeFirst env loaded files).dup d) ∧
      (∀ (env : PipelineEnv) (loaded : List (String × CacheEntry))
          (files : List (String × List FileInfo)) (d : Digest) (r : FileInfo),
        r ∈ alGroup (findDuplicateFilesMd5SizeFirst env loaded files).dup d →
        r.md5 = some d) := by
  have hs := calculateMd5_default_spec md5 a content fileSize h
  exact ⟨⟨hs.1, hs.2.2.2 hcap⟩,
    fun env loaded files it d rs h1 h2 =>
      pipeline_success_mem_group env loaded files it d rs h1 h2,
    fun env loaded files d r hr =>
      pipeline_mem_group_md5 env loaded files d r hr⟩

/-- Witness for C6 amended: the capped read on the concrete 1025-byte
content, and the digest-only grouping on the concrete failed-h1 run (where
h2 hashes successfully to digest [7]). -/
theorem C6_witness :
    argsCapBlock.md5_mode = MD5Mode.DEFAULT ∧
      0 < argsCapBlock.md5_max_size ∧
      (((calculateMd5 md5Len argsCapBlock (List.replicate 1025 3) 1025).1 =
          md5Len ((List.replicate 1025 3).take
            (calculateMd5 md5Len argsCapBlock (List.replicate 1025 3) 1025).2) ∧
        (calculateMd5 md5Len argsCapBlock (List.replicate 1025 3) 1025).2 <
          argsCapBlock.md5_max_size * 1024 + effBlockSize argsCapBlock) ∧
        (∀ (env : PipelineEnv) (loaded : List (String × CacheEntry))
            (files : List (String × List FileInfo)) (it : FileInfo × String)
            (d : Digest) (rs : Nat),
          it ∈ needingOf env loaded files →
          env.hashFn it.1 = .success d rs →
          enrichHashed it.1 d rs ∈
            alGroup (findDuplicateFilesMd5SizeFirst env loaded files).dup d) ∧
        (∀ (env : PipelineEnv) (loaded : List (String × CacheEntry))
            (files : List (String × List FileInfo)) (d : Digest) (r : FileInfo),
          r ∈ alGroup (findDuplicateFilesMd5SizeFirst env loaded files).dup d →
          r.md5 = some d)) :=
  ⟨rfl, by decide,
   C6_amended_cap_and_digest_only_equality md5Len argsCapBlock
     (List.replicate 1025 3) 1025 rfl (by decide)⟩

theorem alLookup_mem {κ β : Type} [DecidableEq κ]
    (m : List (κ × β)) (k : κ) (v : β) (h : alLookup m k = some v) :
    (k, v) ∈ m := by
  induction m with
  | nil => simp [alLookup] at h
  | cons hd tl ih =>
    obtain ⟨k₀, v₀⟩ := hd
    by_cases hk : k = k₀
    · subst hk
      have hv : v₀ = v := by simpa [alLookup] using h
      subst hv
      exact List.mem_cons_self _ _
    · simp only [alLookup, if_neg hk] at h
      exact List.mem_cons_of_mem _ (ih h)

theorem alLookup_eq_none_of_not_mem_keys {κ β : Type} [DecidableEq κ]
    (m : List (κ × β)) (k : κ) (h : k ∉ alKeys m) :
    alLookup m k = none := by
  induction m with
  | nil => rfl
  | cons hd tl ih =>
    obtain ⟨k₀, v₀⟩ := hd
    simp only [alKeys, List.map_cons, List.mem_cons] at h
    push_neg at h
    simp only [alLookup, if_neg h.1]
    exact ih h.2

theorem alKeys_filter_subset {κ β : Type} [DecidableEq κ]
    (m : List (κ × β)) (p : κ × β → Bool) (k : κ)
    (h : k ∈ alKeys (m.filter p)) : k ∈ alKeys m := by
  unfold alKeys at *
  exact (List.map_subset Prod.fst (List.filter_sublist m).subset) h

theorem alLookup_filter_of_nodup {κ β : Type} [DecidableEq κ]
    (m : List (κ × β)) (p : κ × β → Bool) (k : κ)
    (hnd : (alKeys m).Nodup) :
    alLookup (m.filter p) k =
      match alLookup m k with
      | some v => if p (k, v) then some v else none
      | none => none := by
  induction m with
  | nil => simp [alLookup]
  | cons hd tl ih =>
    obtain ⟨k₀, v₀⟩ := hd
    simp only [alKeys, List.map_cons, List.nodup_cons] at hnd
    by_cases hk : k = k₀
    · subst hk
      by_cases hp : p (k, v₀)
      · simp [List.filter_cons, hp, alLookup]
      · simp only [List.filter_cons, Bool.not_eq_true] at hp ⊢
        rw [hp]
        simp only [alLookup, if_pos rfl]
        rw [alLookup_eq_none_of_not_mem_keys]
        · simp [hp]
        · intro hmem
          exact hnd.1 (alKeys_filter_subset tl p k hmem)
    · simp only [List.filter_cons]
      by_cases hp : p (k₀, v₀)
      · simp only [hp, if_true, alLookup, if_neg hk]
        exact ih hnd.2
      · simp only [hp, Bool.false_eq_true, if_false, alLookup, if_neg hk]
        exact ih hnd.2

/-- Lookup of a group with more than one member survives the duplicates
filter; smaller groups and absent keys are dropped. -/
theorem alLookup_realDuplicates {κ : Type} [DecidableEq κ]
    (m : List (κ × List FileInfo)) (k : κ) (hnd : (alKeys m).Nodup) :
    alLookup (realDuplicates m) k =
      match alLookup m k with
      | some g => if 1 < g.length then some g else none
      | none => none := by
  unfold realDuplicates
  rw [alLookup_filter_of_nodup m (fun g => 1 < g.2.length) k hnd]
  rcases alLookup m k with _ | g
  · rfl
  · simp

/-! ### Size-triage structure lemmas (for the losslessness analysis) -/

theorem sizeGroups_keys_nodup (files : List (String × List FileInfo)) :
    (alKeys (sizeGroups files)).Nodup :=
  alKeys_groupFold_nodup _ _ _ [] (by simp [alKeys])

theorem candidateGroups_keys_nodup (files : List (String × List FileInfo)) :
    (alKeys (candidateGroups files)).Nodup := by
  have h := sizeGroups_keys_nodup files
  unfold candidateGroups
  unfold alKeys at *
  exact h.sublist ((List.filter_sublist _).map Prod.fst)

theorem sizeGroups_snd_eq (files : List (String × List FileInfo))
    (kg : Nat × List FileInfo) (h : kg ∈ sizeGroups files) :
    kg.2 = (allRecords files).filter (fun fi => fi.size = kg.1) := by
  have hlk : alLookup (sizeGroups files) kg.1 = some kg.2 := by
    apply alLookup_of_mem_nodup _ _ _ (sizeGroups_keys_nodup files)
    exact h
  have hgr : alGroup (sizeGroups files) kg.1 =
      (allRecords files).filter (fun fi => fi.size = kg.1) := by
    unfold sizeGroups
    rw [alGroup_groupFold]
    simp [alGroup, alLookup]
  rw [← hgr]
  simp [alGroup, hlk]

theorem candidateGroups_snd_eq (files : List (String × List FileInfo))
    (kg : Nat × List FileInfo) (h : kg ∈ candidateGroups files) :
    kg.2 = (allRecords files).filter (fun fi => fi.size = kg.1) :=
  sizeGroups_snd_eq files kg (List.mem_of_mem_filter h)

theorem mem_flattened_mem_allRecords (files : List (String × List FileInfo))
    (x : FileInfo) (h : x ∈ flattenedCandidates files) : x ∈ allRecords files := by
  unfold flattenedCandidates at h
  rcases List.mem_flatMap.mp h with ⟨kg, hkg, hx⟩
  rw [candidateGroups_snd_eq files kg hkg] at hx
  exact List.mem_of_mem_filter hx

theorem candidateGroups_key_mem (files : List (String × List FileInfo)) (s : Nat)
    (hcand : 1 < ((allRecords files).filter (fun fi => fi.size = s)).length) :
    s ∈ alKeys (candidateGroups files) := by
  have hne : (allRecords files).filter (fun fi => fi.size = s) ≠ [] := by
    intro h
    rw [h] at hcand
    simp at hcand
  have hlk : alLookup (sizeGroups files) s =
      some ((allRecords files).filter (fun fi => fi.size = s)) := by
    unfold sizeGroups
    have := alLookup_groupFold_of_filter_ne_nil (fun fi : FileInfo => fi.size)
      (id : FileInfo → FileInfo) (allRecords files) s hne
    simpa using this
  have hmem : (s, (allRecords files).filter (fun fi => fi.size = s)) ∈
      sizeGroups files := alLookup_mem _ _ _ hlk
  have hcm : (s, (allRecords files).filter (fun fi => fi.size = s)) ∈
      candidateGroups files := by
    apply List.mem_filter.mpr
    exact ⟨hmem, by simpa using hcand⟩
  unfold alKeys
  exact List.mem_map_of_mem Prod.fst hcm

theorem flatMap_if_single {κ α β : Type} [DecidableEq κ]
    (l : List (κ × List α)) (s : κ) (target : List β) (f : κ × List α → List β)
    (hf : ∀ x ∈ l, f x = if x.1 = s then target else [])
    (hnd : (l.map Prod.fst).Nodup) (hs : s ∈ l.map Prod.fst) :
    l.flatMap f = target := by
  induction l with
  | nil => simp at hs
  | cons hd tl ih =>
    simp only [List.map_cons, List.nodup_cons] at hnd
    rw [List.map_cons] at hs
    rcases List.mem_cons.mp hs with hh | hh
    · have hfh : f hd = target := by
        rw [hf hd (List.mem_cons_self _ _), if_pos hh.symm]
      have htl : tl.flatMap f = [] := by
        apply List.flatMap_eq_nil_iff.mpr
        intro x hx
        rw [hf x (List.mem_cons_of_mem _ hx), if_neg]
        intro he
        apply hnd.1
        have hx1 : hd.1 = x.1 := by
          rw [← hh]
          exact he.symm
        rw [hx1]
        exact List.mem_map_of_mem Prod.fst hx
      simp [hfh, htl]
    · have hfh : f hd = [] := by
        rw [hf hd (List.mem_cons_self _ _), if_neg]
        intro he
        apply hnd.1
        rw [he]
        exact hh
      rw [List.flatMap_cons, hfh, List.nil_append]
      exact ih (fun x hx => hf x (List.mem_cons_of_mem _ hx)) hnd.2 hh

/-- When all records satisfying `p` share the size `s` and size group `s` is
a candidate (at least two members), filtering the triage-flattened candidate
list by `p` gives exactly the discovery-order filter of all records. -/
theorem flattened_filter_of_cand (files : List (String × List FileInfo))
    (p : FileInfo → Bool) (s : Nat)
    (hp : ∀ x ∈ allRecords files, p x = true → x.size = s)
    (hcand : 1 < ((allRecords files).filter (fun fi => fi.size = s)).length) :
    (flattenedCandidates files).filter p = (allRecords files).filter p := by
  unfold flattenedCandidates
  rw [List.filter_flatMap]
  apply flatMap_if_single (candidateGroups files) s ((allRecords files).filter p)
  · intro kg hkg
    rw [candidateGroups_snd_eq files kg hkg]
    by_cases hks : kg.1 = s
    · rw [if_pos hks, List.filter_filter]
      apply List.filter_congr
      intro x hx
      by_cases hpx : p x = true
      · have : x.size = s := hp x hx hpx
        simp [hpx, this, hks]
      · simp only [Bool.not_eq_true] at hpx
        simp [hpx]
    · rw [if_neg hks]
      apply List.filter_eq_nil_iff.mpr
      intro x hx hpx
      have h1 : x.size = kg.1 :=
        of_decide_eq_true (List.mem_filter.mp hx).2
      have h2 : x.size = s := hp x (List.mem_of_mem_filter hx) hpx
      exact hks (h1 ▸ h2)
  · exact candidateGroups_keys_nodup files
  · exact candidateGroups_key_mem files s hcand

/-- When all records satisfying `p` share the size `s` and size group `s` is
not a candidate, no candidate record satisfies `p`. -/
theorem flattened_filter_nil (files : List (String × List FileInfo))
    (p : FileInfo → Bool) (s : Nat)
    (hp : ∀ x ∈ allRecords files, p x = true → x.size = s)
    (hncand : ¬ 1 < ((allRecords files).filter (fun fi => fi.size = s)).length) :
    (flattenedCandidates files).filter p = [] := by
  apply List.filter_eq_nil_iff.mpr
  intro x hx hpx
  unfold flattenedCandidates at hx
  rcases List.mem_flatMap.mp hx with ⟨kg, hkg, hxin⟩
  have hsnd := candidateGroups_snd_eq files kg hkg
  have hxL : x ∈ allRecords files := by
    rw [hsnd] at hxin
    exact List.mem_of_mem_filter hxin
  have hxs : x.size = kg.1 := by
    rw [hsnd] at hxin
    exact of_decide_eq_true (List.mem_filter.mp hxin).2
  have hks : kg.1 = s := hxs ▸ hp x hxL hpx
  have hbig : 1 < kg.2.length := by
    have := (List.mem_filter.mp hkg).2
    simpa using this
  rw [hsnd, hks] at hbig
  exact hncand hbig

/-- When no record at all satisfies `p`, no candidate record does. -/
theorem flattened_filter_nil_of_nil (files : List (String × List FileInfo))
    (p : FileInfo → Bool)
    (h : (allRecords files).filter p = []) :
    (flattenedCandidates files).filter p = [] := by
  apply List.filter_eq_nil_iff.mpr
  intro x hx hpx
  have hxL : x ∈ allRecords files := mem_flattened_mem_allRecords files x hx
  exact (List.filter_eq_nil_iff.mp h) x hxL hpx

/-! ### The cache-disabled, error-free pipeline reduces to a digest groupFold -/

theorem cacheDecision_no_cache (env : PipelineEnv)
    (loaded : List (String × CacheEntry)) (fi : FileInfo)
    (hnc : env.args.md5_cache = false) :
    cacheDecision env loaded fi = none := by
  unfold cacheDecision
  rw [hnc]
  simp

theorem needingOf_no_cache (env : PipelineEnv)
    (loaded : List (String × CacheEntry)) (files : List (String × List FileInfo))
    (hnc : env.args.md5_cache = false) :
    needingOf env loaded files =
      (flattenedCandidates files).map (fun fi => (fi, fullPathOf fi)) := by
  rw [needingOf_eq]
  congr 1
  apply List.filter_eq_self.mpr
  intro fi _
  simp [cacheDecision_no_cache env loaded fi hnc]

theorem cacheHits_no_cache (env : PipelineEnv)
    (loaded : List (String × CacheEntry)) (files : List (String × List FileInfo))
    (hnc : env.args.md5_cache = false) :
    cacheHits env loaded files = [] := by
  unfold cacheHits
  apply List.filterMap_eq_nil_iff.mpr
  intro fi _
  rw [cacheDecision_no_cache env loaded fi hnc]
  rfl

theorem hashSuccesses_noErrors (md5 : List Nat → Digest) (a : Args)
    (fs : FileInfo → List Nat) (stat : String → Option FileStat)
    (ckf : String → String) (l : List (FileInfo × String)) :
    hashSuccesses ⟨a, hashNoErrors md5 a fs, stat, ckf⟩ l =
      l.map (fun it => (contentDigest md5 a fs it.1, contentEnrich md5 a fs it.1)) := by
  induction l with
  | nil => rfl
  | cons it l ih =>
    simp only [hashSuccesses, List.filterMap_cons] at *
    rw [ih]
    rfl

/-- With the cache disabled and error-free hashing, the pipeline's duplicate
map is the digest groupFold over the triage-flattened candidate list. -/
theorem noCache_dup_eq (md5 : List Nat → Digest) (a : Args)
    (fs : FileInfo → List Nat) (stat : String → Option FileStat)
    (ckf : String → String) (loaded : List (String × CacheEntry))
    (files : List (String × List FileInfo)) (hnc : a.md5_cache = false) :
    (findDuplicateFilesMd5SizeFirst ⟨a, hashNoErrors md5 a fs, stat, ckf⟩
        loaded files).dup =
      groupFold (contentDigest md5 a fs) (contentEnrich md5 a fs) []
        (flattenedCandidates files) := by
  unfold findDuplicateFilesMd5SizeFirst
  rw [hashPhase_foldl_dup]
  have h1 : (cachePass ⟨a, hashNoErrors md5 a fs, stat, ckf⟩ loaded files).1 = [] := by
    unfold cachePass
    rw [cachePass_foldl_fst]
    have : (flattenedCandidates files).filterMap
        (fun fi => (cacheDecision ⟨a, hashNoErrors md5 a fs, stat, ckf⟩ loaded fi).map
          (fun e => (fi, e))) = [] := by
      apply List.filterMap_eq_nil_iff.mpr
      intro fi _
      rw [cacheDecision_no_cache _ loaded fi hnc]
      rfl
    rw [this]
    rfl
  rw [show (cachePass ⟨a, hashNoErrors md5 a fs, stat, ckf⟩ loaded files).2 =
      needingOf ⟨a, hashNoErrors md5 a fs, stat, ckf⟩ loaded files from rfl]
  rw [h1, needingOf_no_cache _ loaded files hnc, hashSuccesses_noErrors]
  unfold groupFold
  rw [List.foldl_map, List.foldl_map]

theorem contentDigest_no_cap (md5 : List Nat → Digest) (a : Args)
    (fs : FileInfo → List Nat) (fi : FileInfo)
    (hmode : a.md5_mode = .DEFAULT) (hcap : a.md5_max_size = 0) :
    contentDigest md5 a fs fi = md5 (fs fi) := by
  unfold contentDigest
  have h := calculateMd5_default_spec md5 a (fs fi) fi.size hmode
  rw [h.1, h.2.2.1 hcap, List.take_length]

/-- C4 counterexample: under a 1 KB byte cap (block = 1024), two files of
sizes 1024 and 1025 sharing their first kilobyte are unique by size, so the
triage pipeline hashes nothing and reports no duplicate group — while the
triage-free differential pipeline hashes both to the same capped digest and
reports a two-member group.  Group membership differs, refuting the claim
"including when a partial-hash byte cap is configured". -/
theorem C4_counterexample :
    realDuplicates (findDuplicateFilesMd5SizeFirst envCap [] filesGG).dup = [] ∧
      realDuplicates (findDuplicateFilesNoTriage md5Len argsCap1 fsRep filesGG) ≠
        [] := by
  constructor
  · rfl
  · decide

/-- C4 amended: size triage is a lossless optimization when no byte cap is
configured (md5_max_size = 0) and the digest function is collision-free:
for the cache-disabled sequential pipeline with error-free hashing and
accurate sizes, the duplicates filter of the triage pipeline's group map
agrees at every digest with that of the spec-modelled hash-everything
pipeline.  With a byte cap, equal capped digests no longer imply equal
sizes and triage can lose groups (see the counterexample). -/
theorem C4_amended_triage_lossless_without_cap (md5 : List Nat → Digest)
    (a : Args) (fs : FileInfo → List Nat) (stat : String → Option FileStat)
    (ckf : String → String) (loaded : List (String × CacheEntry))
    (files : List (String × List FileInfo))
    (hinj : Function.Injective md5) (hmode : a.md5_mode = .DEFAULT)
    (hcap : a.md5_max_size = 0) (hnc : a.md5_cache = false)
    (hsz : ∀ fi ∈ allRecords files, fi.size = (fs fi).length) :
    ∀ d : Digest,
      alLookup (realDuplicates (findDuplicateFilesMd5SizeFirst
          ⟨a, hashNoErrors md5 a fs, stat, ckf⟩ loaded files).dup) d =
        alLookup (realDuplicates (findDuplicateFilesNoTriage md5 a fs files)) d := by
  intro d
  have hdupeq := noCache_dup_eq md5 a fs stat ckf loaded files hnc
  have hTnd : (alKeys (findDuplicateFilesMd5SizeFirst
      ⟨a, hashNoErrors md5 a fs, stat, ckf⟩ loaded files).dup).Nodup := by
    rw [hdupeq]
    exact alKeys_groupFold_nodup _ _ _ [] (by simp [alKeys])
  have hNnd : (alKeys (findDuplicateFilesNoTriage md5 a fs files)).Nodup := by
    unfold findDuplicateFilesNoTriage
    exact alKeys_groupFold_nodup _ _ _ [] (by simp [alKeys])
  rw [alLookup_realDuplicates _ _ hTnd, alLookup_realDuplicates _ _ hNnd]
  rw [hdupeq]
  unfold findDuplicateFilesNoTriage
  by_cases hnil :
      (allRecords files).filter (fun fi => contentDigest md5 a fs fi = d) = []
  · have hFnil := flattened_filter_nil_of_nil files
      (fun fi => contentDigest md5 a fs fi = d) hnil
    rw [(alLookup_groupFold_eq_none (contentDigest md5 a fs)
        (contentEnrich md5 a fs) (flattenedCandidates files) [] d).mpr ⟨rfl, hFnil⟩]
    rw [(alLookup_groupFold_eq_none (contentDigest md5 a fs)
        (contentEnrich md5 a fs) (allRecords files) [] d).mpr ⟨rfl, hnil⟩]
  · obtain ⟨x₀, hx₀f⟩ := List.exists_mem_of_ne_nil _ hnil
    have hx₀L : x₀ ∈ allRecords files := List.mem_of_mem_filter hx₀f
    have hx₀d : contentDigest md5 a fs x₀ = d :=
      of_decide_eq_true (List.mem_filter.mp hx₀f).2
    have hp : ∀ x ∈ allRecords files,
        decide (contentDigest md5 a fs x = d) = true → x.size = x₀.size := by
      intro x hx hpx
      have hxd : contentDigest md5 a fs x = d := of_decide_eq_true hpx
      have hcx : md5 (fs x) = md5 (fs x₀) := by
        rw [← contentDigest_no_cap md5 a fs x hmode hcap,
          ← contentDigest_no_cap md5 a fs x₀ hmode hcap, hxd, hx₀d]
      have hfs : fs x = fs x₀ := hinj hcx
      rw [hsz x hx, hsz x₀ hx₀L, hfs]
    by_cases hcand :
        1 < ((allRecords files).filter (fun fi => fi.size = x₀.size)).length
    · have hFF := flattened_filter_of_cand files
        (fun fi => contentDigest md5 a fs fi = d) x₀.size hp hcand
      have hFne : (flattenedCandidates files).filter
          (fun fi => contentDigest md5 a fs fi = d) ≠ [] := by
        rw [hFF]
        exact hnil
      rw [alLookup_groupFold_of_filter_ne_nil (contentDigest md5 a fs)
          (contentEnrich md5 a fs) (flattenedCandidates files) d hFne,
        alLookup_groupFold_of_filter_ne_nil (contentDigest md5 a fs)
          (contentEnrich md5 a fs) (allRecords files) d hnil, hFF]
    · have hFnil := flattened_filter_nil files
        (fun fi => contentDigest md5 a fs fi = d) x₀.size hp hcand
      rw [(alLookup_groupFold_eq_none (contentDigest md5 a fs)
          (contentEnrich md5 a fs) (flattenedCandidates files) [] d).mpr ⟨rfl, hFnil⟩]
      rw [alLookup_groupFold_of_filter_ne_nil (contentDigest md5 a fs)
          (contentEnrich md5 a fs) (allRecords files) d hnil]
      have heq2 : (allRecords files).filter (fun fi => contentDigest md5 a fs fi = d) =
          ((allRecords files).filter (fun fi => fi.size = x₀.size)).filter
            (fun fi => contentDigest md5 a fs fi = d) := by
        rw [List.filter_filter]
        apply List.filter_congr
        intro x hx
        by_cases hpx : decide (contentDigest md5 a fs x = d) = true
        · have : x.size = x₀.size := hp x hx hpx
          simp [hpx, this]
        · simp only [Bool.not_eq_true] at hpx
          simp [hpx]
      have hle : ((allRecords files).filter
          (fun fi => contentDigest md5 a fs fi = d)).length ≤ 1 := by
        rw [heq2]
        calc (((allRecords files).filter (fun fi => fi.size = x₀.size)).filter
              (fun fi => contentDigest md5 a fs fi = d)).length
            ≤ ((allRecords files).filter (fun fi => fi.size = x₀.size)).length :=
              List.length_filter_le _ _
          _ ≤ 1 := by omega
      simp only [List.length_map]
      rw [if_neg (by omega)]

/-- Witness for C4 amended: the identity digest (collision-free) on the
replicate filesystem with no cap, over the concrete two-record tree. -/
theorem C4_witness :
    Function.Injective (fun l : List Nat => l) ∧
      argsNoCache.md5_mode = MD5Mode.DEFAULT ∧
      argsNoCache.md5_max_size = 0 ∧
      argsNoCache.md5_cache = false ∧
      (∀ fi ∈ allRecords filesGG, fi.size = (fsRep fi).length) ∧
      (∀ d : Digest,
        alLookup (realDuplicates (findDuplicateFilesMd5SizeFirst
            ⟨argsNoCache, hashNoErrors (fun l : List Nat => l) argsNoCache fsRep,
              fun _ => none, id⟩ [] filesGG).dup) d =
          alLookup (realDuplicates (findDuplicateFilesNoTriage
            (fun l : List Nat => l) argsNoCache fsRep filesGG)) d) :=
  ⟨fun _ _ h => h, rfl, rfl, rfl, by decide,
   C4_amended_triage_lossless_without_cap (fun l : List Nat => l) argsNoCache fsRep
     (fun _ => none) id [] filesGG (fun _ _ h => h) rfl rfl rfl (by decide)⟩

end Fdup
